import Mathlib

/-!
Formal model of `setup.py` ("Scripts Manager"): a FastAPI service exposing a
whitelist of shell scripts that are fetched by a sparse git checkout and run
either blocking (full captured output) or as a line-by-line stream in one of
three wire formats.

Each definition below is a shallow embedding of the corresponding Python
function; the ambient runtime (filesystem, subprocesses, git, the POSIX
shell that `shell=True` invokes, CPython's `shlex.quote` and `json.dumps`)
is modelled by explicit oracles passed in as state, or by executable
definitions transcribed from the CPython library sources.  Text is modelled
at the level of Unicode scalar values (`Char`), with byte-level UTF-8
decoding of subprocess output modelled as the identity on that text.
-/

namespace Setup

/-- `SCRIPT_USER = os.environ.get("SCRIPT_USER", "rpi")`, modelled at its
default value (environment variable unset). -/
def SCRIPT_USER : String := "rpi"

/-- `HOME = f"/home/.."` (line 26). -/
def HOME : String := "/home/" ++ SCRIPT_USER

def SCRIPTS_SUBDIR : String := "scripts"

/-- `TARGET_DIR` (line 28), `/home/rpi/scripts` at the default config. -/
def TARGET_DIR : String := HOME ++ "/" ++ SCRIPTS_SUBDIR

def REPO_URL_DEFAULT : String := "https://github.com/Rutomatrix/Intel-features"

def BRANCH_DEFAULT : String := "main"

/-- `ALLOWED_SCRIPTS` (lines 34-39): the allow-list, key to filename. -/
def ALLOWED_SCRIPTS : List (String × String) :=
  [("os_flashing", "os_flashing.sh"),
   ("remove_os_flashing", "remove_os_flashing.sh"),
   ("remove_streaming_hid", "remove_streaming_hid.sh"),
   ("streaming_hid", "streaming_hid.sh")]

/-! ## CPython `shlex.quote` and the shell's reading of the built command

`run_script_by_key` (line 141-142) and `run_named_script_stream` (line
278-279) build one command string from the script path and the arguments,
each piece passed through `shlex.quote`, and hand that string to a
`/bin/bash` shell.  `shlexQuote` below is transcribed from CPython
`Lib/shlex.py`; `shellSplitAux` is a model of the POSIX shell's reading of
a command line (quote removal and field splitting), which returns `none`
as soon as the line contains anything the shell would expand or treat as a
command operator (`$`, backquote, `;`, `|`, `&`, redirection, globbing,
tilde, brace or history expansion, an unterminated quote, ...), so a `some`
result means the line is read purely literally, into exactly those fields. -/

/-- The characters CPython's `shlex._find_unsafe` ASCII regex accepts as
safe: word characters and at-sign, percent, plus, equals, colon, comma,
dot, slash, hyphen. -/
def shlexSafeChar (c : Char) : Bool :=
  c.isAlpha || c.isDigit || c == '_' || c == '@' || c == '%' || c == '+' ||
    c == '=' || c == ':' || c == ',' || c == '.' || c == '/' || c == '-'

/-- `s.replace("'", "'\"'\"'")` acting on a single character. -/
def sqEsc (c : Char) : List Char :=
  if c == '\'' then ['\'', '"', '\'', '"', '\''] else [c]

/-- CPython `shlex.quote`: the empty string becomes two single quotes; a
string of safe characters is returned unchanged; anything else is wrapped
in single quotes with each embedded single quote spelled `'"'"'`. -/
def shlexQuote (s : List Char) : List Char :=
  if s.isEmpty then ['\'', '\'']
  else if s.all shlexSafeChar then s
  else '\'' :: (s.flatMap sqEsc ++ ['\''])

/-- Characters that make the POSIX shell do something other than read a
literal word: expansions, command operators, globbing, comments, history,
brace expansion, a line break. -/
def shellMeta (c : Char) : Bool :=
  c == '$' || c == '`' || c == ';' || c == '&' || c == '|' || c == '<' ||
    c == '>' || c == '(' || c == ')' || c == '*' || c == '?' || c == '[' ||
    c == '#' || c == '~' || c == '!' || c == '\n' || c == '\x7b' || c == '\x7d'

/-- Reading mode of the shell scanner: outside quotes, inside single
quotes, inside double quotes. -/
inductive SplitMode where
  | norm
  | squote
  | dquote
deriving DecidableEq

/-- One pass of the shell's field recognition over a command line.
`cur` is the word being accumulated, `started` whether a word is open
(so `''` yields an empty field), `acc` the completed fields.  Returns
`none` whenever the shell would do anything beyond literal word reading. -/
def shellSplitAux : List Char → SplitMode → List Char → Bool → List (List Char) →
    Option (List (List Char))
  | [], .norm, cur, started, acc => some (acc ++ if started then [cur] else [])
  | [], .squote, _, _, _ => none
  | [], .dquote, _, _, _ => none
  | c :: cs, .norm, cur, started, acc =>
    if c == ' ' || c == '\t' then
      if started then shellSplitAux cs .norm [] false (acc ++ [cur])
      else shellSplitAux cs .norm [] false acc
    else if c == '\'' then shellSplitAux cs .squote cur true acc
    else if c == '"' then shellSplitAux cs .dquote cur true acc
    else if c == '\\' then
      match cs with
      | [] => none
      | d :: ds =>
        if d == '\n' then shellSplitAux ds .norm cur started acc
        else shellSplitAux ds .norm (cur ++ [d]) true acc
    else if shellMeta c then none
    else shellSplitAux cs .norm (cur ++ [c]) true acc
  | c :: cs, .squote, cur, started, acc =>
    if c == '\'' then shellSplitAux cs .norm cur started acc
    else shellSplitAux cs .squote (cur ++ [c]) started acc
  | c :: cs, .dquote, cur, started, acc =>
    if c == '"' then shellSplitAux cs .norm cur started acc
    else if c == '$' || c == '`' then none
    else if c == '\\' then
      match cs with
      | [] => none
      | d :: ds =>
        if d == '$' || d == '`' || d == '"' || d == '\\' then
          shellSplitAux ds .dquote (cur ++ [d]) started acc
        else if d == '\n' then shellSplitAux ds .dquote cur started acc
        else shellSplitAux ds .dquote (cur ++ [c, d]) started acc
    else shellSplitAux cs .dquote (cur ++ [c]) started acc

/-- The fields the shell reads a command line into, when it reads the line
purely literally (`none` otherwise, see `shellSplitAux`). -/
def shellSplit (s : List Char) : Option (List (List Char)) :=
  shellSplitAux s .norm [] false []

/-- Python `sep.join(parts)`. -/
def pyJoin (sep : List Char) : List (List Char) → List Char
  | [] => []
  | [x] => x
  | x :: y :: xs => x ++ sep ++ pyJoin sep (y :: xs)

/-- Python `str.isspace` members that `str.strip()` removes. -/
def pySpace (c : Char) : Bool :=
  c == ' ' || c == '\t' || c == '\n' || c == '\r' || c == '\x0b' || c == '\x0c'

/-- Python `str.strip()`: drop leading and trailing whitespace. -/
def pyStrip (s : List Char) : List Char :=
  ((s.dropWhile pySpace).reverse.dropWhile pySpace).reverse

/-- Line 141 / 278: `arg_str = " ".join(shlex.quote(a) for a in args)`. -/
def argStr (args : List (List Char)) : List Char :=
  pyJoin [' '] (args.map shlexQuote)

/-- Line 142 / 279 with the default (empty) sudo prefix:
`f"../bin/bash ...".strip()` built from the quoted script path and the
quoted, space-joined arguments, then stripped. -/
def buildCmd (script_path : List Char) (args : List (List Char)) : List Char :=
  pyStrip ("/bin/bash ".toList ++ shlexQuote script_path ++ [' '] ++ argStr args)

/-- `buildCmd` on `String`s. -/
def cmdString (script_path : String) (args : List String) : String :=
  String.mk (buildCmd script_path.toList (args.map String.toList))

/-! ## CPython `json.dumps` string escaping (default `ensure_ascii=True`)

`_stream_proc_with_format` (lines 192-205) emits `json.dumps({"line": line})`
for the jsonl and sse formats.  The escaping below is transcribed from
CPython `Lib/json/encoder.py` (`py_encode_basestring_ascii`): printable
ASCII other than quote and backslash passes through, the two-character
escapes cover quote, backslash and the five control shorthands, every other
scalar becomes `\uXXXX` (lowercase hex), with a surrogate pair for scalars
above `0xFFFF`.  `jsonUnescape` is the inverse reading, used to state that
the escaping loses nothing of the line's content. -/

/-- Lowercase hex digit of `n < 16` (as `"\u%04x" % n` prints it). -/
def hexDig (n : Nat) : Char :=
  if n < 10 then Char.ofNat (48 + n) else Char.ofNat (87 + n)

/-- The four hex digits of `n < 0x10000`, most significant first. -/
def hex4 (n : Nat) : List Char :=
  [hexDig (n / 4096 % 16), hexDig (n / 256 % 16), hexDig (n / 16 % 16), hexDig (n % 16)]

/-- A `\uXXXX` escape. -/
def uEsc (n : Nat) : List Char :=
  '\\' :: 'u' :: hex4 n

/-- `json.dumps` escaping of one character (`ensure_ascii=True`). -/
def jsonEscChar (c : Char) : List Char :=
  if c == '"' then ['\\', '"']
  else if c == '\\' then ['\\', '\\']
  else if c == '\x08' then ['\\', 'b']
  else if c == '\x0c' then ['\\', 'f']
  else if c == '\n' then ['\\', 'n']
  else if c == '\r' then ['\\', 'r']
  else if c == '\t' then ['\\', 't']
  else if 32 ≤ c.toNat && c.toNat ≤ 126 then [c]
  else if c.toNat < 65536 then uEsc c.toNat
  else uEsc (55296 + (c.toNat - 65536) / 1024) ++ uEsc (56320 + (c.toNat - 65536) % 1024)

/-- `json.dumps` escaping of a whole string (the text between the quotes). -/
def jsonEscape (s : List Char) : List Char :=
  s.flatMap jsonEscChar

/-- `json.dumps({"line": line})`: a one-field object; the default
separators put one space after the colon. -/
def dumpsLineObj (line : List Char) : List Char :=
  '\x7b' :: '"' :: ("line".toList ++ ('"' :: ':' :: ' ' :: '"' :: jsonEscape line) ++ ['"', '\x7d'])

/-- Value of one hex digit character (either case), `none` otherwise. -/
def hexVal (c : Char) : Option Nat :=
  if 48 ≤ c.toNat ∧ c.toNat ≤ 57 then some (c.toNat - 48)
  else if 97 ≤ c.toNat ∧ c.toNat ≤ 102 then some (c.toNat - 87)
  else if 65 ≤ c.toNat ∧ c.toNat ≤ 70 then some (c.toNat - 55)
  else none

/-- Value of four hex digit characters, most significant first. -/
def hex4Val (a b c d : Char) : Option Nat :=
  match hexVal a, hexVal b, hexVal c, hexVal d with
  | some va, some vb, some vc, some vd => some (((va * 16 + vb) * 16 + vc) * 16 + vd)
  | _, _, _, _ => none

/-- Reading of what follows a decoded `\uXXXX` escape of value `n`: a high
surrogate must be followed by a `\uXXXX` low surrogate (the pair is
recombined), a lone low surrogate is rejected, anything else stands for
itself. -/
def unescapeU (n : Nat) (t : List Char) : Option (Char × List Char) :=
  if 55296 ≤ n ∧ n < 56320 then
    match t with
    | '\\' :: 'u' :: e :: f :: g :: h :: t2 =>
      match hex4Val e f g h with
      | none => none
      | some m =>
        if 56320 ≤ m ∧ m < 57344 then
          some (Char.ofNat (65536 + (n - 55296) * 1024 + (m - 56320)), t2)
        else none
    | _ => none
  else if 56320 ≤ n ∧ n < 57344 then none
  else some (Char.ofNat n, t)

/-- Reading of one character of a JSON-escaped string body: two-character
escapes, `\uXXXX` (with surrogate pairs recombined via `unescapeU`),
everything else literal. -/
def unescapeStep : List Char → Option (Char × List Char)
  | [] => none
  | c :: t =>
    if c == '\\' then
      match t with
      | [] => none
      | d :: t2 =>
        if d == '"' then some ('"', t2)
        else if d == '\\' then some ('\\', t2)
        else if d == 'b' then some ('\x08', t2)
        else if d == 'f' then some ('\x0c', t2)
        else if d == 'n' then some ('\n', t2)
        else if d == 'r' then some ('\r', t2)
        else if d == 't' then some ('\t', t2)
        else if d == 'u' then
          match t2 with
          | a :: b :: c2 :: d2 :: t3 =>
            match hex4Val a b c2 d2 with
            | none => none
            | some n => unescapeU n t3
          | _ => none
        else none
    else some (c, t)

/-- The reading loop over a whole escaped body, with explicit fuel (one
unit per decoded character suffices). -/
def jsonUnescapeFuel : Nat → List Char → Option (List Char)
  | _, [] => some []
  | 0, _ :: _ => none
  | fuel + 1, c :: t =>
    match unescapeStep (c :: t) with
    | none => none
    | some (d, t2) => (jsonUnescapeFuel fuel t2).map (fun r => d :: r)

/-- Reading of a JSON-escaped string body back into its text: the inverse
of `jsonEscape`. -/
def jsonUnescape (s : List Char) : Option (List Char) :=
  jsonUnescapeFuel s.length s

/-! ## The streaming pipeline (lines 164-205, 266-301)

`_stream_proc_raw` spawns the command with stderr merged into stdout and
repeatedly calls `readline()` on the pipe until EOF, yielding each chunk
(decoded permissively; decoding is modelled as the identity on text), then
awaits `proc.wait()`.  The child's entire merged output is modelled as one
text, and `readLines` is `readline()`'s splitting of it: each chunk ends
with the newline that terminated it, a final unterminated chunk is
returned as is.  The run is modelled twice: as the list of yielded chunks,
and as an event trace for lifecycle questions (what runs before the
consumer disconnects). -/

/-- `readline()` splitting of the whole stream (accumulator reversed). -/
def readLinesAux : List Char → List Char → List (List Char)
  | [], acc => if acc.isEmpty then [] else [acc.reverse]
  | c :: cs, acc =>
    if c == '\n' then (c :: acc).reverse :: readLinesAux cs []
    else readLinesAux cs (c :: acc)

/-- All chunks `readline()` returns on the child's output, in order. -/
def readLines (s : List Char) : List (List Char) :=
  readLinesAux s []

/-- One observable step of `_stream_proc_raw` / `gen`.  `terminateChild`
is an event no code in `setup.py` ever emits (there is no `kill`,
`terminate` or `try/finally` anywhere in the file); it exists so that the
disconnect analysis can state that cleanup never terminates the child. -/
inductive StreamEvent where
  | spawnShell (cmd : String)
  | readline (chunk : List Char)
  | yieldChunk (chunk : List Char)
  | waitExit
  | terminateChild
deriving DecidableEq

/-- The read/yield loop of `_stream_proc_raw` (lines 181-186) followed by
the EOF read and `await proc.wait()` (line 189). -/
def rawLoop : List (List Char) → List StreamEvent
  | [] => [.readline [], .waitExit]
  | c :: cs => .readline c :: .yieldChunk c :: rawLoop cs

/-- Lines 164-189 `_stream_proc_raw` as an event trace, on a child whose
merged stdout+stderr output is `output`. -/
def stream_proc_raw_trace (cmd : String) (output : List Char) : List StreamEvent :=
  .spawnShell cmd :: rawLoop (readLines output)

/-- The chunks a list of events yields, in order. -/
def yieldsOf : List StreamEvent → List (List Char)
  | [] => []
  | e :: es =>
    match e with
    | .yieldChunk c => c :: yieldsOf es
    | _ => yieldsOf es

/-- The chunk sequence `_stream_proc_raw` yields: what its trace emits. -/
def stream_proc_raw (cmd : String) (output : List Char) : List (List Char) :=
  yieldsOf (stream_proc_raw_trace cmd output)

/-- The three streaming wire formats (line 270). -/
inductive StreamFormat where
  | plain
  | jsonl
  | sse
deriving DecidableEq

/-- Python `s.rstrip("\n")`: drop all trailing newlines (line 201). -/
def rstripNl (s : List Char) : List Char :=
  (s.reverse.dropWhile (fun c => c == '\n')).reverse

/-- What `_stream_proc_with_format` yields for one raw chunk `s`:
plain passes it through; jsonl emits the one-field JSON object of the
newline-stripped line plus a record newline; sse wraps the same object in
a `data:` field with the blank-line frame terminator. -/
def fmtChunk : StreamFormat → List Char → List Char
  | .plain, s => s
  | .jsonl, s => dumpsLineObj (rstripNl s) ++ ['\n']
  | .sse, s => "data: ".toList ++ dumpsLineObj (rstripNl s) ++ ['\n', '\n']

/-- The `async for` loop of `_stream_proc_with_format` (lines 192-205):
one output chunk per raw chunk, in order. -/
def fmtLoop (fmt : StreamFormat) : List (List Char) → List (List Char)
  | [] => []
  | s :: rest => fmtChunk fmt s :: fmtLoop fmt rest

/-- Lines 192-205 `_stream_proc_with_format`: the formatted chunk
sequence. -/
def stream_proc_with_format (cmd : String) (fmt : StreamFormat) (output : List Char) :
    List (List Char) :=
  fmtLoop fmt (stream_proc_raw cmd output)

/-- The body of `gen()` inside `run_named_script_stream` (lines 287-293):
every formatted chunk, and in the plain format one extra final empty chunk
("flush a final newline, helps curl not complain", line 292-293). -/
def genChunks (cmd : String) (fmt : StreamFormat) (output : List Char) : List (List Char) :=
  stream_proc_with_format cmd fmt output ++ (if fmt == .plain then [[]] else [])

/-- The prefix of an event trace up to and including the `k`-th yielded
chunk: what has run when the consumer has received `k` chunks and the
generator is suspended at that yield. -/
def takeThroughYields : Nat → List StreamEvent → List StreamEvent
  | 0, _ => []
  | _ + 1, [] => []
  | k + 1, e :: es =>
    match e with
    | .yieldChunk c => .yieldChunk c :: takeThroughYields k es
    | _ => e :: takeThroughYields (k + 1) es

/-- What Python runs when an async generator suspended at a yield is
closed (the consumer disconnected): only `finally:` blocks.
`_stream_proc_raw` and `gen` contain no `try/finally`, so nothing runs. -/
def disconnectFinalizers : List StreamEvent := []

/-- All events the streaming machinery has executed once a consumer that
received `k` chunks disconnects and the generator is closed: the prefix up
to the `k`-th yield, plus the (empty) finalizer suffix. -/
def disconnectTrace (cmd : String) (output : List Char) (k : Nat) : List StreamEvent :=
  takeThroughYields k (stream_proc_raw_trace cmd output) ++ disconnectFinalizers

/-! ## The blocking-run path (lines 52-161, 251-264)

State the Python functions read and write: the filesystem (a partial map
from path to stat+content) and the outcome of running a shell command
(`subprocess.run`), both supplied as oracles in a `World`.  Calls record an
`Effect` trace so that "no path is consulted, no process spawned" is a
statement about the trace. -/

/-- What `os.stat`/`open` see of one file: mode bits and content. -/
structure FileStat where
  st_mode : Nat
  content : String
deriving DecidableEq

/-- Outcome of one spawned shell command (`subprocess.CompletedProcess`). -/
structure ProcResult where
  returncode : Int
  stdout : String
  stderr : String
deriving DecidableEq

/-- The runtime a blocking run interacts with. -/
structure World where
  file : String → Option FileStat
  runOutcome : String → ProcResult

/-- Observable side effects of the blocking-run path. -/
inductive Effect where
  | statFile (path : String)
  | chmodFile (path : String)
  | spawnProc (cmd : String)
deriving DecidableEq

/-- The result dict `run_script_by_key` builds (lines 151-160). -/
structure RunResult where
  script : String
  path : String
  args : List String
  returncode : Int
  stdout : String
  stderr : String
  script_source : Option String := none
deriving DecidableEq

/-- How a handler call ends exceptionally: an `HTTPException` whose detail
is a string, an `HTTPException` whose detail is the whole result dict
(line 263), or an uncaught Python `TypeError`. -/
inductive ApiError where
  | http (status : Nat) (detail : String)
  | httpDetail (status : Nat) (detail : RunResult)
  | typeError (msg : String)
deriving DecidableEq

/-- The value bound to a handler's `args` parameter.  Over HTTP, FastAPI
injects `None` or the parsed list; when a handler is called directly as a
Python function (the shortcut routes, lines 304-318), the parameter keeps
its literal default, which is the `fastapi.Query(...)` marker object
itself, not `None`. -/
inductive PyArgs where
  | pynone
  | pylist (l : List String)
  | queryDefault (d : Option (List String))
deriving DecidableEq

/-- Same for the `include_source` parameter. -/
inductive PyBool where
  | pybool (b : Bool)
  | queryBoolDefault (d : Bool)
deriving DecidableEq

/-- Line 141's `for a in (args or [])`: `None` and `[]` are falsy and give
`[]`; a non-empty list is used as is; a `Query` marker object is truthy
but not iterable, so iteration raises `TypeError`. -/
def iterArgs : PyArgs → Except ApiError (List String)
  | .pynone => .ok []
  | .pylist l => .ok l
  | .queryDefault _ => .error (.typeError "Query object is not iterable")

/-- Python truthiness of the `include_source` value (a `Query` marker
object is an ordinary object, hence truthy). -/
def pyTruthy : PyBool → Bool
  | .pybool b => b
  | .queryBoolDefault _ => true

/-- Lines 121-127 `_script_path_for_key`: reject keys outside the
allow-list before touching the filesystem; then require the file to
exist. -/
def script_path_for_key (w : World) (key : String) :
    Except ApiError String × List Effect :=
  match ALLOWED_SCRIPTS.lookup key with
  | none => (.error (.http 400 ("Unknown script key '" ++ key ++ "'")), [])
  | some filename =>
    let script_path := TARGET_DIR ++ "/" ++ filename
    if (w.file script_path).isSome then (.ok script_path, [.statFile script_path])
    else (.error (.http 404 ("Script not found: " ++ script_path)), [.statFile script_path])

/-- `os.chmod(path, st.st_mode | 0o111)` on the mode bits (line 66). -/
def chmodAdd (m : Nat) : Nat := m ||| 0o111

/-- Lines 63-68 `ensure_executable`: stat the path and add the execute
bits; a missing file is ignored. -/
def ensure_executable (w : World) (path : String) : World × List Effect :=
  match w.file path with
  | some st =>
    ({ w with
        file := fun q =>
          if q = path then some { st with st_mode := chmodAdd st.st_mode } else w.file q },
     [.statFile path, .chmodFile path])
  | none => (w, [.statFile path])

/-- Lines 129-134 `_read_script_source`: read the file content with
permissive decoding; any failure degrades to a placeholder string (the
Python exception text inside it is abbreviated here). -/
def read_script_source (w : World) (path : String) : String :=
  match w.file path with
  | some st => st.content
  | none => "<unable to read script: error>"

/-- Lines 137-161 `run_script_by_key`: resolve, ensure the execute bit,
build the quoted command under `stdbuf -oL -eL`, run it, and return the
full result dict whatever the exit code is. -/
def run_script_by_key (w : World) (key : String) (args : PyArgs) (include_source : PyBool) :
    Except ApiError RunResult × World × List Effect :=
  match script_path_for_key w key with
  | (.error e, eff) => (.error e, w, eff)
  | (.ok script_path, eff) =>
    let we := ensure_executable w script_path
    match iterArgs args with
    | .error e => (.error e, we.1, eff ++ we.2)
    | .ok argList =>
      let cmd := "stdbuf -oL -eL " ++ cmdString script_path argList
      let cp := w.runOutcome cmd
      let result : RunResult :=
        { script := key, path := script_path, args := argList,
          returncode := cp.returncode, stdout := cp.stdout, stderr := cp.stderr,
          script_source :=
            if pyTruthy include_source then some (read_script_source we.1 script_path)
            else none }
      (.ok result, we.1, eff ++ we.2 ++ [.spawnProc cmd])

/-- Lines 251-264 `run_named_script`: run blocking; a nonzero exit code is
re-raised as an HTTP 500 whose detail is the complete result dict. -/
def run_named_script (w : World) (key : String) (args : PyArgs) (include_source : PyBool) :
    Except ApiError RunResult × World × List Effect :=
  match run_script_by_key w key args include_source with
  | (.error e, w2, eff) => (.error e, w2, eff)
  | (.ok result, w2, eff) =>
    if result.returncode ≠ 0 then (.error (.httpDetail 500 result), w2, eff)
    else (.ok result, w2, eff)

/-- Lines 304-306 `run_os_flashing`: the shortcut handler calls
`run_named_script` with only the key, so `args` and `include_source` keep
their Python defaults — the `Query(...)` marker objects. -/
def run_os_flashing (w : World) : Except ApiError RunResult × World × List Effect :=
  run_named_script w "os_flashing" (.queryDefault none) (.queryBoolDefault false)

/-- Lines 308-310. -/
def run_remove_os_flashing (w : World) : Except ApiError RunResult × World × List Effect :=
  run_named_script w "remove_os_flashing" (.queryDefault none) (.queryBoolDefault false)

/-- Lines 312-314. -/
def run_remove_streaming_hid (w : World) : Except ApiError RunResult × World × List Effect :=
  run_named_script w "remove_streaming_hid" (.queryDefault none) (.queryBoolDefault false)

/-- Lines 316-318. -/
def run_streaming_hid (w : World) : Except ApiError RunResult × World × List Effect :=
  run_named_script w "streaming_hid" (.queryDefault none) (.queryBoolDefault false)

/-! ## Routing (Starlette dispatch over the registered route table)

Starlette tries routes in registration order and the first full match
handles the request; a `{key}` segment matches any non-empty segment
without a slash.  The table below lists the routes of `setup.py` in source
order. -/

/-- One segment of a route pattern: a literal, or the `{key}` parameter. -/
inductive PatSeg where
  | lit (s : String)
  | key
deriving DecidableEq

/-- The handlers of `setup.py`. -/
inductive Handler where
  | hList
  | hClone
  | hRunNamed (key : String)
  | hRunStream (key : String)
  | hOsFlashing
  | hRemoveOsFlashing
  | hRemoveStreamingHid
  | hStreamingHid
  | hRoot
deriving DecidableEq

/-- Match a pattern against the request's path segments, returning the
captured parameter values. -/
def segsMatch : List PatSeg → List String → Option (List String)
  | [], [] => some []
  | .lit s :: ps, t :: ts => if s = t then segsMatch ps ts else none
  | .key :: ps, t :: ts => if t = "" then none else (segsMatch ps ts).map (fun r => t :: r)
  | _, _ => none

/-- The route table in registration order (decorator order in the file). -/
def routeTable : List (String × List PatSeg × (List String → Handler)) :=
  [("GET", ([.lit "scripts", .lit "list"], fun _ => .hList)),
   ("POST", ([.lit "scripts", .lit "clone"], fun _ => .hClone)),
   ("POST", ([.lit "scripts", .lit "run", .key], fun ps => .hRunNamed (ps.headD ""))),
   ("POST", ([.lit "scripts", .lit "run", .key, .lit "stream"],
     fun ps => .hRunStream (ps.headD ""))),
   ("POST", ([.lit "scripts", .lit "run", .lit "os_flashing"], fun _ => .hOsFlashing)),
   ("POST", ([.lit "scripts", .lit "run", .lit "remove_os_flashing"],
     fun _ => .hRemoveOsFlashing)),
   ("POST", ([.lit "scripts", .lit "run", .lit "remove_streaming_hid"],
     fun _ => .hRemoveStreamingHid)),
   ("POST", ([.lit "scripts", .lit "run", .lit "streaming_hid"], fun _ => .hStreamingHid)),
   ("GET", ([], fun _ => .hRoot))]

/-- First-match dispatch over a route table. -/
def dispatch : List (String × List PatSeg × (List String → Handler)) → String → List String →
    Option Handler
  | [], _, _ => none
  | (m, pat, h) :: rest, method, segs =>
    if m = method then
      match segsMatch pat segs with
      | some ps => some (h ps)
      | none => dispatch rest method segs
    else dispatch rest method segs

/-- A POST request with no query parameters, dispatched through the route
table, restricted to the blocking-run handlers (other routes give `none`
here).  For `hRunNamed`, FastAPI injects the declared `Query` defaults
(`args=None`, `include_source=False`); the shortcut handlers take no
request parameters. -/
def handleBlockingPost (w : World) (segs : List String) :
    Option (Except ApiError RunResult × World × List Effect) :=
  match dispatch routeTable "POST" segs with
  | some (.hRunNamed key) => some (run_named_script w key .pynone (.pybool false))
  | some .hOsFlashing => some (run_os_flashing w)
  | some .hRemoveOsFlashing => some (run_remove_os_flashing w)
  | some .hRemoveStreamingHid => some (run_remove_streaming_hid w)
  | some .hStreamingHid => some (run_streaming_hid w)
  | _ => none

/-! ## Repository sync (lines 42-45, 63-119, 228-249)

`sparse_clone_scripts` resets a staging directory, runs six git commands
there, verifies the staged `scripts` subdirectory exists, and only then
replaces the target directory, chowns it and adds execute bits to `.sh`
files.  `clone_scripts` (the route handler) optionally removes the target
directory first — before any of that.  The git toolchain and the staging
filesystem are an oracle; the target directory is the explicit state.  An
op trace records the order of the externally visible steps. -/

/-- Outcome oracle for the sync pipeline: whether git step `i` (0-5)
succeeds and what it prints, and what the staged `scripts` directory holds
after checkout (`none` when the repository has no such directory). -/
structure GitOracle where
  stepOk : Nat → Bool
  stepOut : Nat → String × String
  stagingFiles : Option (List (String × Nat))

/-- The state a sync run touches: the target directory's contents (file
name and mode bits; `none` when the directory does not exist) plus the git
oracle. -/
structure SyncWorld where
  target : Option (List (String × Nat))
  git : GitOracle

/-- The externally visible steps of a sync, in execution order. -/
inductive SyncOp where
  | removeTmp
  | makeTmp
  | gitStep (i : Nat)
  | checkStaging
  | removeTarget
  | copyTarget
  | chownTarget
  | chmodShFiles
deriving DecidableEq

/-- How `sparse_clone_scripts` fails: a git step raised (`RuntimeError`
with the step's command and captured output, lines 93-94), or the staged
`scripts` directory is missing (line 98-99). -/
inductive SyncError where
  | gitFailed (cmd : String) (stdout : String) (stderr : String)
  | sparseEmpty
deriving DecidableEq

/-- `shlexQuote` on a `String`. -/
def quoteStr (s : String) : String :=
  String.mk (shlexQuote s.toList)

/-- The six git commands of lines 83-90, in order. -/
def gitCmds (repo_url branch : String) : List String :=
  ["git init",
   "git remote add origin " ++ quoteStr repo_url,
   "git fetch --depth 1 origin " ++ quoteStr branch,
   "git sparse-checkout init --cone",
   "git sparse-checkout set " ++ quoteStr SCRIPTS_SUBDIR,
   "git checkout " ++ quoteStr branch]

/-- Python `str(e)` of the `RuntimeError` raised for a failed git step
(line 94) or the missing staged directory (line 99). -/
def syncErrMsg : SyncError → String
  | .gitFailed cmd out err => "[git] " ++ cmd ++ "\nstdout:\n" ++ out ++ "\nstderr:\n" ++ err
  | .sparseEmpty => "Sparse checkout succeeded but 'scripts' folder not found in repo."

/-- `name.endswith(".sh")`. -/
def hasShExt (name : String) : Bool :=
  List.isSuffixOf ['.', 's', 'h'] name.toList

/-- The `ensure_executable` loop of lines 117-119: add execute bits to
every `.sh` file of the directory listing. -/
def syncChmodStep (files : List (String × Nat)) : List (String × Nat) :=
  files.map fun p => if hasShExt p.1 then (p.1, chmodAdd p.2) else p

/-- The index of the first failing git step, if any. -/
def firstGitFailure (g : GitOracle) : Option Nat :=
  [0, 1, 2, 3, 4, 5].find? fun i => !(g.stepOk i)

/-- Lines 70-119 `sparse_clone_scripts` (staging in `/tmp`, `dest_dir` is
the target directory modelled by `SyncWorld.target`): reset staging, run
the six git steps (a failure raises with that step's command and output),
check the staged `scripts` directory, and only then remove the target,
copy the staged directory over, chown it (best effort) and add execute
bits to the `.sh` files. -/
def sparse_clone_scripts (repo_url branch : String) (w : SyncWorld) :
    Except SyncError Unit × SyncWorld × List SyncOp :=
  let pre : List SyncOp := [.removeTmp, .makeTmp]
  match firstGitFailure w.git with
  | some i =>
    let cmd := ((gitCmds repo_url branch).drop i).headD ""
    (.error (.gitFailed cmd (w.git.stepOut i).1 (w.git.stepOut i).2), w,
      pre ++ (List.range (i + 1)).map .gitStep)
  | none =>
    let ops := pre ++ (List.range 6).map .gitStep ++ [.checkStaging]
    match w.git.stagingFiles with
    | none => (.error .sparseEmpty, w, ops)
    | some files =>
      (.ok (), { w with target := some (syncChmodStep files) },
        ops ++ [.removeTarget, .copyTarget, .chownTarget, .chmodShFiles])

/-- Lines 42-45 `CloneRequest`. -/
structure CloneRequest where
  repo_url : Option String := none
  branch : Option String := none
  clean : Bool := true
deriving DecidableEq

/-- Python `x if req and x else default` for the optional strings of
`clone_scripts` (an empty string is falsy). -/
def pyOrDefault (o : Option String) (d : String) : String :=
  match o with
  | some s => if s = "" then d else s
  | none => d

/-- The response dict of a successful clone (lines 243-249). -/
structure CloneResponse where
  status : String
  repo : String
  branch : String
  target_dir : String
  files : List String
deriving DecidableEq

/-- `req.repo_url if req ... else None` (line 230). -/
def reqRepoUrl (req : Option CloneRequest) : Option String :=
  match req with
  | some r => r.repo_url
  | none => none

/-- `req.branch if req ... else None` (line 231). -/
def reqBranch (req : Option CloneRequest) : Option String :=
  match req with
  | some r => r.branch
  | none => none

/-- `clean = (req.clean if req is not None else True)` (line 232). -/
def cleanFlag (req : Option CloneRequest) : Bool :=
  match req with
  | some r => r.clean
  | none => true

/-- Lines 238-249 of `clone_scripts`, after the optional clean: run
`sparse_clone_scripts`, turning its exceptions into an HTTP 500 carrying
the message; `cw` is the state and op trace the clean step produced. -/
def clone_scripts_after (repo branch : String) (cw : SyncWorld × List SyncOp) :
    Except ApiError CloneResponse × SyncWorld × List SyncOp :=
  match sparse_clone_scripts repo branch cw.1 with
  | (.error e, w2, ops) =>
    (.error (.http 500 ("Clone failed: " ++ syncErrMsg e)), w2, cw.2 ++ ops)
  | (.ok _, w2, ops) =>
    (.ok { status := "ok", repo := repo, branch := branch, target_dir := TARGET_DIR,
           files := (w2.target.getD []).map Prod.fst },
     w2, cw.2 ++ ops)

/-- Lines 228-249 `clone_scripts`: with `clean` (the default) an existing
target directory is removed up front (lines 235-236), before the sparse
clone runs; then the rest of the handler. -/
def clone_scripts (req : Option CloneRequest) (w : SyncWorld) :
    Except ApiError CloneResponse × SyncWorld × List SyncOp :=
  clone_scripts_after (pyOrDefault (reqRepoUrl req) REPO_URL_DEFAULT)
    (pyOrDefault (reqBranch req) BRANCH_DEFAULT)
    (if cleanFlag req && w.target.isSome then
      (({ w with target := none } : SyncWorld), [SyncOp.removeTarget])
     else (w, ([] : List SyncOp)))

/-! ## Script listing (lines 210-226) -/

/-- The runtime `list_scripts` reads: `os.listdir(TARGET_DIR)` in whatever
order the OS returns (`none` when the directory does not exist), and
`os.access(p, os.X_OK)`. -/
structure ListWorld where
  listing : Option (List String)
  xok : String → Bool

/-- One entry of the `found` list (lines 217-221). -/
structure FoundScript where
  name : String
  path : String
  executable : Bool
deriving DecidableEq

/-- The response of `list_scripts` (lines 222-226). -/
structure ListResponse where
  target_dir : String
  allowed_keys : List String
  found : List FoundScript
deriving DecidableEq

/-- Python string comparison on characters: code-point order. -/
def lexLeChars : List Char → List Char → Bool
  | [], _ => true
  | _ :: _, [] => false
  | a :: as, b :: bs => if a = b then lexLeChars as bs else decide (a.toNat < b.toNat)

/-- Python `<=` on strings: lexicographic by code point. -/
def pyLe (a b : String) : Prop :=
  lexLeChars a.toList b.toList = true

instance pyLeDecidable : DecidableRel pyLe :=
  fun a b => instDecidableEqBool (lexLeChars a.toList b.toList) true

/-- Python `sorted` on strings: a stable sort by `pyLe`. -/
def pySorted (l : List String) : List String :=
  List.insertionSort pyLe l

/-- Lines 210-226 `list_scripts`: when the target directory exists, the
sorted listing filtered to `.sh` names, each with its path and execute
bit; otherwise an empty `found`; the allow-list keys either way. -/
def list_scripts (w : ListWorld) : ListResponse :=
  { target_dir := TARGET_DIR
    allowed_keys := ALLOWED_SCRIPTS.map Prod.fst
    found :=
      match w.listing with
      | none => []
      | some names =>
        ((pySorted names).filter hasShExt).map fun f =>
          { name := f, path := TARGET_DIR ++ "/" ++ f,
            executable := w.xok (TARGET_DIR ++ "/" ++ f) } }

deriving instance DecidableEq for Except

/-! # Theorems -/

/-! ## C7: unknown keys are rejected before any filesystem or process use -/

/-- C7: for every key not present in the allow-list, resolution fails with
the 400 "Unknown script key" condition, no filesystem path is consulted
and no child process is spawned: both the resolver and the blocking run
return that error with the world unchanged and an empty effect trace. -/
theorem unknown_key_rejected_without_effects
    (w : World) (key : String) (args : PyArgs) (inc : PyBool)
    (h : ALLOWED_SCRIPTS.lookup key = none) :
    script_path_for_key w key =
      (.error (.http 400 ("Unknown script key '" ++ key ++ "'")), []) ∧
    run_script_by_key w key args inc =
      (.error (.http 400 ("Unknown script key '" ++ key ++ "'")), w, []) ∧
    run_named_script w key args inc =
      (.error (.http 400 ("Unknown script key '" ++ key ++ "'")), w, []) := by
  have h1 : script_path_for_key w key =
      (.error (.http 400 ("Unknown script key '" ++ key ++ "'")), []) := by
    unfold script_path_for_key
    rw [h]
  have h2 : run_script_by_key w key args inc =
      (.error (.http 400 ("Unknown script key '" ++ key ++ "'")), w, []) := by
    unfold run_script_by_key
    rw [h1]
  refine ⟨h1, h2, ?_⟩
  unfold run_named_script
  rw [h2]

/-- C7 witness: the concrete world and key exercising the theorem. -/
theorem unknown_key_rejected_without_effects_witness :
    ALLOWED_SCRIPTS.lookup "not_a_key" = none ∧
    run_script_by_key
        { file := fun _ => none, runOutcome := fun _ => ⟨0, "", ""⟩ }
        "not_a_key" .pynone (.pybool false) =
      (.error (.http 400 "Unknown script key 'not_a_key'"),
       { file := fun _ => none, runOutcome := fun _ => ⟨0, "", ""⟩ }, []) :=
  ⟨by decide,
   (unknown_key_rejected_without_effects
     { file := fun _ => none, runOutcome := fun _ => ⟨0, "", ""⟩ }
     "not_a_key" .pynone (.pybool false) (by decide)).2.1⟩

/-! ## C1: a nonzero exit never raises in the runner; the transport maps it -/

/-- C1: for every allow-listed key whose script file exists, a blocking run
whose subprocess ends with any exit code `cp.returncode` (zero or not)
returns `.ok` from `run_script_by_key` with the complete captured stdout
and stderr; only `run_named_script` (the transport boundary) turns a
nonzero code into the distinct 500 failure status, and that failure still
carries the full result payload. -/
theorem blocking_run_reports_exit_code
    (w : World) (key filename : String) (st : FileStat) (args : List String)
    (inc : Bool) (cp : ProcResult)
    (hk : ALLOWED_SCRIPTS.lookup key = some filename)
    (hf : w.file (TARGET_DIR ++ "/" ++ filename) = some st)
    (hc : w.runOutcome
        ("stdbuf -oL -eL " ++ cmdString (TARGET_DIR ++ "/" ++ filename) args) = cp) :
    (run_script_by_key w key (.pylist args) (.pybool inc)).1 =
      .ok { script := key, path := TARGET_DIR ++ "/" ++ filename, args := args,
            returncode := cp.returncode, stdout := cp.stdout, stderr := cp.stderr,
            script_source := if inc then some st.content else none } ∧
    (run_named_script w key (.pylist args) (.pybool inc)).1 =
      (if cp.returncode = 0 then
        .ok { script := key, path := TARGET_DIR ++ "/" ++ filename, args := args,
              returncode := cp.returncode, stdout := cp.stdout, stderr := cp.stderr,
              script_source := if inc then some st.content else none }
      else
        .error (.httpDetail 500
          { script := key, path := TARGET_DIR ++ "/" ++ filename, args := args,
            returncode := cp.returncode, stdout := cp.stdout, stderr := cp.stderr,
            script_source := if inc then some st.content else none })) := by
  have hp : script_path_for_key w key =
      (.ok (TARGET_DIR ++ "/" ++ filename), [.statFile (TARGET_DIR ++ "/" ++ filename)]) := by
    unfold script_path_for_key
    rw [hk]
    simp [hf]
  have h1 : run_script_by_key w key (.pylist args) (.pybool inc) =
      ((.ok { script := key, path := TARGET_DIR ++ "/" ++ filename, args := args,
              returncode := cp.returncode, stdout := cp.stdout, stderr := cp.stderr,
              script_source := if inc then some st.content else none} :
        Except ApiError RunResult),
       (ensure_executable w (TARGET_DIR ++ "/" ++ filename)).1,
       [.statFile (TARGET_DIR ++ "/" ++ filename)] ++
        (ensure_executable w (TARGET_DIR ++ "/" ++ filename)).2 ++
        [.spawnProc ("stdbuf -oL -eL " ++ cmdString (TARGET_DIR ++ "/" ++ filename) args)]) := by
    unfold run_script_by_key
    rw [hp]
    simp only [iterArgs, ensure_executable, read_script_source, pyTruthy, hf, hc]
    simp [ensure_executable, hf]
  refine ⟨by rw [h1], ?_⟩
  unfold run_named_script
  rw [h1]
  by_cases hz : cp.returncode = 0
  · simp [hz]
  · simp [hz]

/-- C1 witness: a concrete world whose script exits with code 7; the
runner returns the full payload and the route maps it to the 500 status
still carrying that payload. -/
theorem blocking_run_reports_exit_code_witness :
    (run_script_by_key
        { file := fun p => if p = "/home/rpi/scripts/os_flashing.sh" then
            some { st_mode := 420, content := "echo hi" } else none,
          runOutcome := fun _ => { returncode := 7, stdout := "OUT", stderr := "ERR" } }
        "os_flashing" (.pylist ["x"]) (.pybool false)).1 =
      .ok { script := "os_flashing", path := "/home/rpi/scripts/os_flashing.sh",
            args := ["x"], returncode := 7, stdout := "OUT", stderr := "ERR",
            script_source := none } ∧
    (run_named_script
        { file := fun p => if p = "/home/rpi/scripts/os_flashing.sh" then
            some { st_mode := 420, content := "echo hi" } else none,
          runOutcome := fun _ => { returncode := 7, stdout := "OUT", stderr := "ERR" } }
        "os_flashing" (.pylist ["x"]) (.pybool false)).1 =
      .error (.httpDetail 500
        { script := "os_flashing", path := "/home/rpi/scripts/os_flashing.sh",
          args := ["x"], returncode := 7, stdout := "OUT", stderr := "ERR",
          script_source := none }) :=
  blocking_run_reports_exit_code
    { file := fun p => if p = "/home/rpi/scripts/os_flashing.sh" then
        some { st_mode := 420, content := "echo hi" } else none,
      runOutcome := fun _ => { returncode := 7, stdout := "OUT", stderr := "ERR" } }
    "os_flashing" "os_flashing.sh" { st_mode := 420, content := "echo hi" }
    ["x"] false { returncode := 7, stdout := "OUT", stderr := "ERR" }
    (by decide) (by decide) rfl

/-! ## C8: the execute-bit step is additive, sufficient and idempotent -/

theorem bool_or_and_self (a b : Bool) : ((a || b) && b) = b := by
  cases a <;> cases b <;> rfl

theorem bool_or_or_self (a b : Bool) : ((a || b) || b) = (a || b) := by
  cases a <;> cases b <;> rfl

/-- `chmod st.st_mode | 0o111` leaves all three execute bits set. -/
theorem chmodAdd_exec (m : Nat) : chmodAdd m &&& 0o111 = 0o111 := by
  apply Nat.eq_of_testBit_eq
  intro i
  rw [Nat.testBit_and, chmodAdd, Nat.testBit_or]
  exact bool_or_and_self _ _

/-- `chmod st.st_mode | 0o111` retains every previously-set bit. -/
theorem chmodAdd_mono (m i : Nat) (h : m.testBit i = true) :
    (chmodAdd m).testBit i = true := by
  rw [chmodAdd, Nat.testBit_or, h, Bool.true_or]

/-- `chmod st.st_mode | 0o111` twice equals once. -/
theorem chmodAdd_idem (m : Nat) : chmodAdd (chmodAdd m) = chmodAdd m := by
  apply Nat.eq_of_testBit_eq
  intro i
  rw [chmodAdd, chmodAdd]
  simp only [Nat.testBit_or]
  exact bool_or_or_self _ _

/-- Re-running the whole per-directory chmod loop changes nothing. -/
theorem syncChmodStep_idem (files : List (String × Nat)) :
    syncChmodStep (syncChmodStep files) = syncChmodStep files := by
  unfold syncChmodStep
  rw [List.map_map]
  apply List.map_congr_left
  intro p _
  by_cases h : hasShExt p.1 = true
  · simp [h, chmodAdd_idem]
  · simp [h]

/-- C8: after a completed sync the target directory holds the staged files
with the execute-bit loop applied; every `.sh` file in it has all of
`0o111` set and its mode is exactly the staged mode with `0o111` or-ed in
(so every previously-set bit is retained), and re-running the step is the
identity. -/
theorem sync_marks_scripts_executable
    (w : SyncWorld) (repo branch : String) (files : List (String × Nat))
    (hstage : w.git.stagingFiles = some files)
    (hok : (sparse_clone_scripts repo branch w).1 = .ok ()) :
    (sparse_clone_scripts repo branch w).2.1.target = some (syncChmodStep files) ∧
    (∀ n m, (n, m) ∈ syncChmodStep files → hasShExt n = true →
      m &&& 0o111 = 0o111 ∧ ∃ m0, (n, m0) ∈ files ∧ m = chmodAdd m0) ∧
    (∀ m0 i, m0.testBit i = true → (chmodAdd m0).testBit i = true) ∧
    syncChmodStep (syncChmodStep files) = syncChmodStep files := by
  refine ⟨?_, ?_, fun m0 i h => chmodAdd_mono m0 i h, syncChmodStep_idem files⟩
  · unfold sparse_clone_scripts at hok ⊢
    rcases hgit : firstGitFailure w.git with _ | i
    · rw [hstage]
    · rw [hgit] at hok
      simp at hok
  · intro n m hmem hsh
    unfold syncChmodStep at hmem
    rcases List.mem_map.mp hmem with ⟨⟨a, b⟩, hab, heq⟩
    by_cases h : hasShExt a = true
    · rw [if_pos h] at heq
      cases heq
      exact ⟨chmodAdd_exec b, b, hab, rfl⟩
    · rw [if_neg h] at heq
      cases heq
      exact absurd hsh h

/-- C8 witness: a successful sync over a staged directory holding one
script and one unrelated file. -/
theorem sync_marks_scripts_executable_witness :
    (sparse_clone_scripts "r" "b"
        { target := none,
          git := { stepOk := fun _ => true, stepOut := fun _ => ("", ""),
                   stagingFiles := some [("a.sh", 420), ("notes.txt", 384)] } }).2.1.target =
      some (syncChmodStep [("a.sh", 420), ("notes.txt", 384)]) ∧
    (∀ n m, (n, m) ∈ syncChmodStep [("a.sh", 420), ("notes.txt", 384)] → hasShExt n = true →
      m &&& 0o111 = 0o111 ∧ ∃ m0, (n, m0) ∈ [("a.sh", 420), ("notes.txt", 384)] ∧ m = chmodAdd m0) ∧
    (∀ m0 i, m0.testBit i = true → (chmodAdd m0).testBit i = true) ∧
    syncChmodStep (syncChmodStep [("a.sh", 420), ("notes.txt", 384)]) =
      syncChmodStep [("a.sh", 420), ("notes.txt", 384)] :=
  sync_marks_scripts_executable
    { target := none,
      git := { stepOk := fun _ => true, stepOut := fun _ => ("", ""),
               stagingFiles := some [("a.sh", 420), ("notes.txt", 384)] } }
    "r" "b" [("a.sh", 420), ("notes.txt", 384)] rfl (by decide)

/-! ## C3: when is the pre-existing target directory removed? -/

/-- C3 counterexample: with the default `clean=True`, `clone_scripts`
removes the pre-existing target directory first — before staging, before
any git step, before the verification — so a sync that fails with
SparseCheckoutEmpty has already destroyed the target: the op trace starts
with the removal, and the final state has no target directory although the
run returned the 500 failure. -/
theorem clean_sync_removes_target_before_verification :
    (clone_scripts (some { repo_url := none, branch := none, clean := true })
        { target := some [("old_file.sh", 493)],
          git := { stepOk := fun _ => true, stepOut := fun _ => ("", ""),
                   stagingFiles := none } }).1 =
      .error (.http 500
        "Clone failed: Sparse checkout succeeded but 'scripts' folder not found in repo.") ∧
    (clone_scripts (some { repo_url := none, branch := none, clean := true })
        { target := some [("old_file.sh", 493)],
          git := { stepOk := fun _ => true, stepOut := fun _ => ("", ""),
                   stagingFiles := none } }).2.1.target = none ∧
    (clone_scripts (some { repo_url := none, branch := none, clean := true })
        { target := some [("old_file.sh", 493)],
          git := { stepOk := fun _ => true, stepOut := fun _ => ("", ""),
                   stagingFiles := none } }).2.2 =
      [.removeTarget, .removeTmp, .makeTmp, .gitStep 0, .gitStep 1, .gitStep 2,
       .gitStep 3, .gitStep 4, .gitStep 5, .checkStaging] := by
  refine ⟨by decide, by decide, by decide⟩

/-- Failure inside `sparse_clone_scripts` (a git step or the staging
check) leaves the whole state unchanged and performs no target removal:
there, removal does come only after verification. -/
theorem sparse_clone_error_keeps_target
    (repo branch : String) (v : SyncWorld) (e : SyncError)
    (he : (sparse_clone_scripts repo branch v).1 = .error e) :
    (sparse_clone_scripts repo branch v).2.1 = v ∧
    SyncOp.removeTarget ∉ (sparse_clone_scripts repo branch v).2.2 := by
  unfold sparse_clone_scripts at he ⊢
  rcases hgit : firstGitFailure v.git with _ | i
  · rw [hgit] at he
    rcases hstage : v.git.stagingFiles with _ | files
    · rw [hstage] at he
      refine ⟨rfl, ?_⟩
      simp
    · rw [hstage] at he
      simp at he
  · rw [hgit] at he
    refine ⟨rfl, ?_⟩
    simp

/-- C3 amended: inside `sparse_clone_scripts` a failing run (git step
failure or SparseCheckoutEmpty) leaves the target directory untouched and
never performs the removal, so there removal happens only after the staged
checkout is verified; but the route handler `clone_scripts` with
`clean=True` (the default) removes any pre-existing target directory
before the sparse checkout even starts, so a failing sync then leaves no
target directory at all.  In every failure case the final target is either
exactly the original directory or absent — never partially populated. -/
theorem failed_sync_leaves_no_partial_target
    (w : SyncWorld) (repo branch : String) (req : Option CloneRequest) :
    (∀ e, (sparse_clone_scripts repo branch w).1 = .error e →
      (sparse_clone_scripts repo branch w).2.1.target = w.target ∧
      SyncOp.removeTarget ∉ (sparse_clone_scripts repo branch w).2.2) ∧
    (∀ e, (clone_scripts req w).1 = .error e →
      (clone_scripts req w).2.1.target =
        (if cleanFlag req && w.target.isSome then none else w.target)) := by
  have after_err : ∀ (rp br : String) (v : SyncWorld) (pre : List SyncOp) (e2 : ApiError),
      (clone_scripts_after rp br (v, pre)).1 = .error e2 →
      (clone_scripts_after rp br (v, pre)).2.1.target = v.target := by
    intro rp br v pre e2 h2
    unfold clone_scripts_after at h2 ⊢
    dsimp only at h2 ⊢
    rcases hsp : sparse_clone_scripts rp br v with ⟨res, w2, ops⟩
    cases res with
    | error e3 =>
      have h4 := (sparse_clone_error_keeps_target rp br v e3 (by rw [hsp])).1
      rw [hsp] at h4
      dsimp only at h4 ⊢
      rw [h4]
    | ok u =>
      rw [hsp] at h2
      simp at h2
  constructor
  · intro e he
    rcases sparse_clone_error_keeps_target repo branch w e he with ⟨h1, h2⟩
    exact ⟨by rw [h1], h2⟩
  · intro e he
    unfold clone_scripts at he ⊢
    by_cases hcl : (cleanFlag req && w.target.isSome) = true
    · rw [if_pos hcl] at he ⊢
      rw [if_pos hcl]
      exact after_err _ _ _ _ e he
    · rw [if_neg hcl] at he ⊢
      rw [if_neg hcl]
      exact after_err _ _ _ _ e he

/-- C3 amended witness: a failing sync with `clean=False` against a
pre-existing target leaves it exactly in place, and the inner function
performs no removal on failure. -/
theorem failed_sync_leaves_no_partial_target_witness :
    ((sparse_clone_scripts "r" "b"
        { target := some [("old_file.sh", 493)],
          git := { stepOk := fun _ => true, stepOut := fun _ => ("", ""),
                   stagingFiles := none } }).2.1.target =
      some [("old_file.sh", 493)] ∧
     SyncOp.removeTarget ∉ (sparse_clone_scripts "r" "b"
        { target := some [("old_file.sh", 493)],
          git := { stepOk := fun _ => true, stepOut := fun _ => ("", ""),
                   stagingFiles := none } }).2.2) ∧
    (clone_scripts (some { repo_url := none, branch := none, clean := false })
        { target := some [("old_file.sh", 493)],
          git := { stepOk := fun _ => true, stepOut := fun _ => ("", ""),
                   stagingFiles := none } }).2.1.target =
      some [("old_file.sh", 493)] :=
  ⟨(failed_sync_leaves_no_partial_target
      { target := some [("old_file.sh", 493)],
        git := { stepOk := fun _ => true, stepOut := fun _ => ("", ""),
                 stagingFiles := none } } "r" "b" none).1 .sparseEmpty (by decide),
   (failed_sync_leaves_no_partial_target
      { target := some [("old_file.sh", 493)],
        git := { stepOk := fun _ => true, stepOut := fun _ => ("", ""),
                 stagingFiles := none } } "r" "b"
      (some { repo_url := none, branch := none, clean := false })).2
     (.http 500 "Clone failed: Sparse checkout succeeded but 'scripts' folder not found in repo.")
     (by decide)⟩

/-! ## C10: the listing is sorted, is exactly the `.sh` files, and a
missing directory degrades to an empty `found` list -/

/-- Code-point comparison is total. -/
theorem lexLeChars_total (a b : List Char) :
    lexLeChars a b = true ∨ lexLeChars b a = true := by
  induction a generalizing b with
  | nil => left; rfl
  | cons x xs ih =>
    cases b with
    | nil => right; rfl
    | cons y ys =>
      by_cases hxy : x = y
      · subst hxy
        rw [lexLeChars, if_pos rfl, lexLeChars, if_pos rfl]
        exact ih ys
      · have hyx : y ≠ x := fun h => hxy h.symm
        have hne : x.toNat ≠ y.toNat := by
          intro h
          apply hxy
          have h2 := congrArg Char.ofNat h
          rwa [Char.ofNat_toNat, Char.ofNat_toNat] at h2
        rw [lexLeChars, if_neg hxy, lexLeChars, if_neg hyx]
        rcases Nat.lt_or_ge x.toNat y.toNat with h | h
        · left; exact decide_eq_true h
        · right
          exact decide_eq_true (lt_of_le_of_ne h fun e => hne e.symm)

/-- Code-point comparison is transitive. -/
theorem lexLeChars_trans (a b c : List Char) (h1 : lexLeChars a b = true)
    (h2 : lexLeChars b c = true) : lexLeChars a c = true := by
  induction a generalizing b c with
  | nil => rfl
  | cons x xs ih =>
    cases b with
    | nil => simp [lexLeChars] at h1
    | cons y ys =>
      cases c with
      | nil => simp [lexLeChars] at h2
      | cons z zs =>
        by_cases hxy : x = y
        · subst hxy
          rw [lexLeChars, if_pos rfl] at h1
          by_cases hyz : x = z
          · subst hyz
            rw [lexLeChars, if_pos rfl] at h2
            rw [lexLeChars, if_pos rfl]
            exact ih ys zs h1 h2
          · rw [lexLeChars, if_neg hyz] at h2
            rw [lexLeChars, if_neg hyz]
            exact h2
        · rw [lexLeChars, if_neg hxy] at h1
          have hxy' : x.toNat < y.toNat := of_decide_eq_true h1
          by_cases hyz : y = z
          · subst hyz
            rw [lexLeChars, if_neg hxy]
            exact decide_eq_true hxy'
          · rw [lexLeChars, if_neg hyz] at h2
            have hyz' : y.toNat < z.toNat := of_decide_eq_true h2
            have hxz' : x.toNat < z.toNat := Nat.lt_trans hxy' hyz'
            have hxz : x ≠ z := by
              intro e
              subst e
              exact Nat.lt_irrefl _ hxz'
            rw [lexLeChars, if_neg hxz]
            exact decide_eq_true hxz'

instance pyLeTotal : IsTotal String pyLe :=
  ⟨fun a b => lexLeChars_total a.toList b.toList⟩

instance pyLeTrans : IsTrans String pyLe :=
  ⟨fun a b c => lexLeChars_trans a.toList b.toList c.toList⟩

/-- C10: `list_scripts` reports the found entries in sorted (code-point
lexicographic) filename order; a name is reported exactly when it is in
the directory listing and ends in `.sh`; every entry carries the absolute
path under the target directory and the execute-bit answer for that path;
a missing target directory yields an empty `found` rather than a failure,
and the configured allow-list keys are always returned. -/
theorem list_scripts_sorted_sh_entries (w : ListWorld) :
    ((list_scripts w).found.map FoundScript.name).Sorted pyLe ∧
    (∀ names, w.listing = some names →
      ∀ n, n ∈ (list_scripts w).found.map FoundScript.name ↔
        n ∈ names ∧ hasShExt n = true) ∧
    (∀ e, e ∈ (list_scripts w).found →
      e.path = TARGET_DIR ++ "/" ++ e.name ∧
      e.executable = w.xok (TARGET_DIR ++ "/" ++ e.name)) ∧
    (w.listing = none → (list_scripts w).found = []) ∧
    (list_scripts w).allowed_keys =
      ["os_flashing", "remove_os_flashing", "remove_streaming_hid", "streaming_hid"] := by
  have hnames : ∀ names, w.listing = some names →
      (list_scripts w).found.map FoundScript.name = (pySorted names).filter hasShExt := by
    intro names h
    unfold list_scripts
    rw [h]
    dsimp only
    rw [List.map_map]
    exact List.map_id _
  refine ⟨?_, ?_, ?_, ?_, rfl⟩
  · rcases h : w.listing with _ | names
    · unfold list_scripts
      rw [h]
      exact List.sorted_nil
    · rw [hnames names h]
      exact (List.sorted_insertionSort pyLe names).filter hasShExt
  · intro names h n
    rw [hnames names h, List.mem_filter]
    unfold pySorted
    rw [List.mem_insertionSort]
  · intro e he
    unfold list_scripts at he
    rcases h : w.listing with _ | names
    · rw [h] at he
      simp at he
    · rw [h] at he
      dsimp only at he
      rcases List.mem_map.mp he with ⟨f, _, rfl⟩
      exact ⟨rfl, rfl⟩
  · intro h
    unfold list_scripts
    rw [h]

/-- C10 witness: a directory listed out of order with a non-script file,
and a missing directory. -/
theorem list_scripts_sorted_sh_entries_witness :
    ((list_scripts
        { listing := some ["b.sh", "a.sh", "c.txt"],
          xok := fun _ => true }).found.map FoundScript.name).Sorted pyLe ∧
    ("a.sh" ∈ (list_scripts
        { listing := some ["b.sh", "a.sh", "c.txt"],
          xok := fun _ => true }).found.map FoundScript.name ↔
      "a.sh" ∈ ["b.sh", "a.sh", "c.txt"] ∧ hasShExt "a.sh" = true) ∧
    (list_scripts { listing := none, xok := fun _ => true }).found = [] :=
  ⟨(list_scripts_sorted_sh_entries
      { listing := some ["b.sh", "a.sh", "c.txt"], xok := fun _ => true }).1,
   (list_scripts_sorted_sh_entries
      { listing := some ["b.sh", "a.sh", "c.txt"], xok := fun _ => true }).2.1
     ["b.sh", "a.sh", "c.txt"] rfl "a.sh",
   (list_scripts_sorted_sh_entries
      { listing := none, xok := fun _ => true }).2.2.2.1 rfl⟩

/-! ## Stream pipeline lemmas (C2, C5, C6) -/

/-- `readline` returns one newline-terminated chunk and leaves the rest. -/
theorem readLinesAux_line (l : List Char) (rest : List Char) (acc : List Char)
    (h : '\n' ∉ l) :
    readLinesAux (l ++ '\n' :: rest) acc =
      (acc.reverse ++ (l ++ ['\n'])) :: readLinesAux rest [] := by
  induction l generalizing acc with
  | nil => simp [readLinesAux]
  | cons c cs ih =>
    have hc : (c == '\n') = false := by
      have hne : c ≠ '\n' := fun e => h (e ▸ List.mem_cons_self c cs)
      simp [hne]
    rw [List.cons_append, readLinesAux, if_neg (by simp [hc])]
    rw [ih (c :: acc) (fun hm => h (List.mem_cons_of_mem c hm))]
    simp

/-- `readline` on the concatenation of newline-terminated lines returns
exactly those lines, in order. -/
theorem readLines_flatten (lines : List (List Char))
    (h : ∀ l ∈ lines, '\n' ∉ l) :
    readLines ((lines.map fun l => l ++ ['\n']).flatten) =
      lines.map fun l => l ++ ['\n'] := by
  induction lines with
  | nil => rfl
  | cons l ls ih =>
    unfold readLines
    rw [List.map_cons, List.flatten_cons]
    rw [List.append_assoc, List.singleton_append, readLinesAux_line l _ []
      (h l (List.mem_cons_self l ls))]
    rw [List.reverse_nil, List.nil_append]
    exact congrArg _ (ih fun x hx => h x (List.mem_cons_of_mem l hx))

/-- The raw loop yields exactly the chunks it reads. -/
theorem yieldsOf_rawLoop (cs : List (List Char)) : yieldsOf (rawLoop cs) = cs := by
  induction cs with
  | nil => rfl
  | cons c cs ih =>
    rw [rawLoop]
    rw [show yieldsOf (StreamEvent.readline c :: StreamEvent.yieldChunk c :: rawLoop cs) =
      c :: yieldsOf (rawLoop cs) from rfl]
    rw [ih]

/-- The chunks `_stream_proc_raw` yields are the `readline` chunks. -/
theorem stream_proc_raw_chunks (cmd : String) (output : List Char) :
    stream_proc_raw cmd output = readLines output := by
  unfold stream_proc_raw stream_proc_raw_trace
  rw [show yieldsOf (StreamEvent.spawnShell cmd :: rawLoop (readLines output)) =
    yieldsOf (rawLoop (readLines output)) from rfl]
  exact yieldsOf_rawLoop _

/-- The format loop is a per-chunk map. -/
theorem fmtLoop_map (fmt : StreamFormat) (l : List (List Char)) :
    fmtLoop fmt l = l.map (fmtChunk fmt) := by
  induction l with
  | nil => rfl
  | cons s rest ih =>
    rw [fmtLoop, List.map_cons, ih]

/-- Dropping leading newlines does nothing to a list that has none. -/
theorem dropWhile_nl_of_not_mem (l : List Char) (h : '\n' ∉ l) :
    l.dropWhile (fun c => c == '\n') = l := by
  cases l with
  | nil => rfl
  | cons c cs =>
    have hne : c ≠ '\n' := fun e => h (e ▸ List.mem_cons_self c cs)
    rw [List.dropWhile_cons, if_neg (by simp [hne])]

/-- `s.rstrip("\n")` on one newline-terminated line recovers the line. -/
theorem rstripNl_line (l : List Char) (h : '\n' ∉ l) : rstripNl (l ++ ['\n']) = l := by
  unfold rstripNl
  rw [List.reverse_append]
  show (('\n' :: l.reverse).dropWhile fun c => c == '\n').reverse = l
  rw [List.dropWhile_cons, if_pos (by simp)]
  rw [dropWhile_nl_of_not_mem l.reverse (by simpa using h)]
  exact List.reverse_reverse l

/-- The raw trace is the interleaved reads and yields, then the EOF read,
then the wait. -/
theorem rawLoop_shape (cs : List (List Char)) :
    rawLoop cs =
      (cs.flatMap fun c => [StreamEvent.readline c, StreamEvent.yieldChunk c]) ++
        [StreamEvent.readline [], StreamEvent.waitExit] := by
  induction cs with
  | nil => rfl
  | cons c cs ih =>
    rw [rawLoop, ih]
    simp

/-! ## C2: chunk count and order per format, completion after exit -/

/-- C2 counterexample: in the plain format a script that prints one line
(N = 1) makes `gen()` yield two chunks, not one — the extra final empty
chunk of line 292-293 follows the N-th chunk. -/
theorem plain_stream_yields_extra_chunk :
    (readLines "hi\n".toList).length = 1 ∧
    genChunks "cmd" .plain "hi\n".toList = ["hi\n".toList, []] ∧
    (genChunks "cmd" .plain "hi\n".toList).length = 2 := by
  refine ⟨by decide, by decide, by decide⟩

/-- C2 amended: for a script whose output is N newline-terminated lines,
the jsonl and sse streams yield exactly N chunks, one per line in emission
order; the plain stream yields those N lines unchanged followed by exactly
one extra empty chunk; and the raw trace performs every yield before the
EOF read and the `proc.wait()` that precede completion. -/
theorem stream_chunks_per_line (cmd : String) (lines : List (List Char))
    (h : ∀ l ∈ lines, '\n' ∉ l) :
    genChunks cmd .jsonl ((lines.map fun l => l ++ ['\n']).flatten) =
      lines.map (fun l => dumpsLineObj l ++ ['\n']) ∧
    genChunks cmd .sse ((lines.map fun l => l ++ ['\n']).flatten) =
      lines.map (fun l => "data: ".toList ++ dumpsLineObj l ++ ['\n', '\n']) ∧
    genChunks cmd .plain ((lines.map fun l => l ++ ['\n']).flatten) =
      lines.map (fun l => l ++ ['\n']) ++ [[]] ∧
    (genChunks cmd .jsonl ((lines.map fun l => l ++ ['\n']).flatten)).length = lines.length ∧
    (genChunks cmd .sse ((lines.map fun l => l ++ ['\n']).flatten)).length = lines.length ∧
    stream_proc_raw_trace cmd ((lines.map fun l => l ++ ['\n']).flatten) =
      .spawnShell cmd ::
        (((lines.map fun l => l ++ ['\n']).flatMap
            fun c => [StreamEvent.readline c, StreamEvent.yieldChunk c]) ++
          [StreamEvent.readline [], StreamEvent.waitExit]) := by
  have hraw : stream_proc_raw cmd ((lines.map fun l => l ++ ['\n']).flatten) =
      lines.map fun l => l ++ ['\n'] := by
    rw [stream_proc_raw_chunks, readLines_flatten lines h]
  have hfmt : ∀ fmt, stream_proc_with_format cmd fmt ((lines.map fun l => l ++ ['\n']).flatten) =
      lines.map fun l => fmtChunk fmt (l ++ ['\n']) := by
    intro fmt
    unfold stream_proc_with_format
    rw [hraw, fmtLoop_map, List.map_map]
    rfl
  have hchunk : ∀ l ∈ lines, rstripNl (l ++ ['\n']) = l := fun l hl => rstripNl_line l (h l hl)
  refine ⟨?_, ?_, ?_, ?_, ?_, ?_⟩
  · unfold genChunks
    rw [hfmt .jsonl]
    simp only [if_neg (by decide : ¬((StreamFormat.jsonl == .plain) = true)), List.append_nil]
    exact List.map_congr_left fun l hl => by
      show dumpsLineObj (rstripNl (l ++ ['\n'])) ++ ['\n'] = dumpsLineObj l ++ ['\n']
      rw [hchunk l hl]
  · unfold genChunks
    rw [hfmt .sse]
    simp only [if_neg (by decide : ¬((StreamFormat.sse == .plain) = true)), List.append_nil]
    exact List.map_congr_left fun l hl => by
      show "data: ".toList ++ dumpsLineObj (rstripNl (l ++ ['\n'])) ++ ['\n', '\n'] =
        "data: ".toList ++ dumpsLineObj l ++ ['\n', '\n']
      rw [hchunk l hl]
  · unfold genChunks
    rw [hfmt .plain]
    rfl
  · unfold genChunks
    rw [hfmt .jsonl]
    simp
  · unfold genChunks
    rw [hfmt .sse]
    simp
  · unfold stream_proc_raw_trace
    rw [readLines_flatten lines h, rawLoop_shape]

/-- C2 amended witness: two lines, all three formats, and the trace. -/
theorem stream_chunks_per_line_witness :
    genChunks "cmd" .jsonl (((["a".toList, "b".toList]).map fun l => l ++ ['\n']).flatten) =
      ["a".toList, "b".toList].map (fun l => dumpsLineObj l ++ ['\n']) ∧
    (genChunks "cmd" .jsonl (((["a".toList, "b".toList]).map fun l => l ++ ['\n']).flatten)).length = 2 :=
  ⟨(stream_chunks_per_line "cmd" ["a".toList, "b".toList] (by decide)).1,
   (stream_chunks_per_line "cmd" ["a".toList, "b".toList] (by decide)).2.2.2.1⟩

/-! ## C5: consumer disconnect does not terminate the child -/

/-- Closing the stream after `k` of the chunks never reaches a terminate
event (none exists in the code) nor even the `proc.wait()`. -/
theorem takeThroughYields_rawLoop_clean (cs : List (List Char)) (k : Nat)
    (hk : k ≤ cs.length) :
    StreamEvent.terminateChild ∉ takeThroughYields k (rawLoop cs) ∧
    StreamEvent.waitExit ∉ takeThroughYields k (rawLoop cs) := by
  induction cs generalizing k with
  | nil =>
    have : k = 0 := Nat.le_zero.mp hk
    subst this
    exact ⟨by simp [takeThroughYields], by simp [takeThroughYields]⟩
  | cons c cs ih =>
    cases k with
    | zero => exact ⟨by simp [takeThroughYields], by simp [takeThroughYields]⟩
    | succ k =>
      have hk' : k ≤ cs.length := by
        simp only [List.length_cons] at hk
        omega
      rcases ih k hk' with ⟨h1, h2⟩
      rw [rawLoop]
      rw [show takeThroughYields (k + 1)
          (StreamEvent.readline c :: StreamEvent.yieldChunk c :: rawLoop cs) =
        StreamEvent.readline c :: StreamEvent.yieldChunk c :: takeThroughYields k (rawLoop cs)
        from rfl]
      constructor
      · intro hmem
        rcases List.mem_cons.mp hmem with h | h
        · exact absurd h (by simp)
        · rcases List.mem_cons.mp h with h3 | h3
          · exact absurd h3 (by simp)
          · exact h1 h3
      · intro hmem
        rcases List.mem_cons.mp hmem with h | h
        · exact absurd h (by simp)
        · rcases List.mem_cons.mp h with h3 | h3
          · exact absurd h3 (by simp)
          · exact h2 h3

/-- C5: if the consumer disconnects after `k` chunks while the script
still has lines to emit (`k` at most the number of chunks), the events the
server has run contain no child termination — and not even the
`proc.wait()` — because the generator is simply closed and `setup.py` has
no cleanup handler, no `kill` and no `terminate` anywhere.  The child
process is left running (or, once it exits by itself, unreaped). -/
theorem disconnect_never_terminates_child (cmd : String) (output : List Char) (k : Nat)
    (hk : k ≤ (readLines output).length) :
    StreamEvent.terminateChild ∉ disconnectTrace cmd output k ∧
    StreamEvent.waitExit ∉ disconnectTrace cmd output k := by
  unfold disconnectTrace disconnectFinalizers stream_proc_raw_trace
  rw [List.append_nil]
  cases k with
  | zero => exact ⟨by simp [takeThroughYields], by simp [takeThroughYields]⟩
  | succ k =>
    rw [show takeThroughYields (k + 1)
        (StreamEvent.spawnShell cmd :: rawLoop (readLines output)) =
      StreamEvent.spawnShell cmd :: takeThroughYields (k + 1) (rawLoop (readLines output))
      from rfl]
    rcases takeThroughYields_rawLoop_clean (readLines output) (k + 1) hk with ⟨h1, h2⟩
    constructor
    · intro hmem
      rcases List.mem_cons.mp hmem with h | h
      · exact absurd h (by simp)
      · exact h1 h
    · intro hmem
      rcases List.mem_cons.mp hmem with h | h
      · exact absurd h (by simp)
      · exact h2 h

/-- C5 witness: a two-line script whose consumer leaves after the first
chunk. -/
theorem disconnect_never_terminates_child_witness :
    StreamEvent.terminateChild ∉ disconnectTrace "cmd" "a\nb\n".toList 1 ∧
    StreamEvent.waitExit ∉ disconnectTrace "cmd" "a\nb\n".toList 1 :=
  disconnect_never_terminates_child "cmd" "a\nb\n".toList 1 (by decide)

/-! ## C6: the jsonl and sse framing loses nothing of the lines -/

/-- A Unicode scalar value is below `0x110000`. -/
theorem char_toNat_lt (c : Char) : c.toNat < 1114112 := by
  rcases c.valid with h | ⟨h1, h2⟩
  · exact Nat.lt_trans h (by decide)
  · exact h2

/-- A Unicode scalar value is never a surrogate. -/
theorem char_not_surrogate (c : Char) : ¬(55296 ≤ c.toNat ∧ c.toNat < 57344) := by
  have hv : c.toNat = c.val.toNat := rfl
  rcases c.valid with h | ⟨h1, h2⟩ <;> (rw [hv]; omega)

/-- Hex digits read back to their value. -/
theorem hexVal_hexDig : ∀ k, k < 16 → hexVal (hexDig k) = some k := by decide

/-- Four hex digits read back to the encoded value. -/
theorem hex4Val_hex4 (n : Nat) (h : n < 65536) :
    hex4Val (hexDig (n / 4096 % 16)) (hexDig (n / 256 % 16)) (hexDig (n / 16 % 16))
      (hexDig (n % 16)) = some n := by
  unfold hex4Val
  rw [hexVal_hexDig _ (by omega), hexVal_hexDig _ (by omega), hexVal_hexDig _ (by omega),
    hexVal_hexDig _ (by omega)]
  exact congrArg some (by omega)

/-- Reading a character the escaper passed through literally. -/
theorem unescapeStep_plain (c : Char) (t : List Char) (h : (c == '\\') = false) :
    unescapeStep (c :: t) = some (c, t) := by
  rw [unescapeStep.eq_def]
  dsimp only
  rw [if_neg (by simp [h])]

/-- Reading a `\uXXXX` escape: the escape syntax is consumed and the four
digits are handed to `hex4Val`/`unescapeU`. -/
theorem unescapeStep_uEsc_general (n : Nat) (rest : List Char) :
    unescapeStep (uEsc n ++ rest) =
      (match hex4Val (hexDig (n / 4096 % 16)) (hexDig (n / 256 % 16)) (hexDig (n / 16 % 16))
          (hexDig (n % 16)) with
       | none => none
       | some m => unescapeU m rest) := rfl

/-- Reading one `\uXXXX` escape of a non-surrogate value. -/
theorem unescapeStep_uEsc (n : Nat) (hn : n < 65536) (hns : ¬(55296 ≤ n ∧ n < 57344))
    (rest : List Char) :
    unescapeStep (uEsc n ++ rest) = some (Char.ofNat n, rest) := by
  rw [unescapeStep_uEsc_general, hex4Val_hex4 n hn]
  dsimp only
  unfold unescapeU
  rw [if_neg (by omega : ¬(55296 ≤ n ∧ n < 56320))]
  rw [if_neg (by omega : ¬(56320 ≤ n ∧ n < 57344))]

/-- Reading the low half of a surrogate pair. -/
theorem unescapeU_high (n : Nat) (hn : 55296 ≤ n ∧ n < 56320) (m : Nat) (hm : m < 65536)
    (h2 : 56320 ≤ m ∧ m < 57344) (rest : List Char) :
    unescapeU n (uEsc m ++ rest) =
      some (Char.ofNat (65536 + (n - 55296) * 1024 + (m - 56320)), rest) := by
  unfold unescapeU
  rw [if_pos hn]
  show (match hex4Val (hexDig (m / 4096 % 16)) (hexDig (m / 256 % 16)) (hexDig (m / 16 % 16))
      (hexDig (m % 16)) with
    | none => none
    | some m2 =>
      if 56320 ≤ m2 ∧ m2 < 57344 then
        some (Char.ofNat (65536 + (n - 55296) * 1024 + (m2 - 56320)), rest)
      else none) = _
  rw [hex4Val_hex4 m hm]
  dsimp only
  rw [if_pos h2]

/-- Reading a surrogate-pair escape back to its scalar. -/
theorem unescapeStep_surrogates (c : Char) (hc : 65536 ≤ c.toNat) (rest : List Char) :
    unescapeStep (uEsc (55296 + (c.toNat - 65536) / 1024) ++
        (uEsc (56320 + (c.toNat - 65536) % 1024) ++ rest)) = some (c, rest) := by
  have hlt := char_toNat_lt c
  rw [unescapeStep_uEsc_general, hex4Val_hex4 _ (by omega)]
  dsimp only
  rw [unescapeU_high _ (by omega) _ (by omega) (by omega)]
  rw [show 65536 + (55296 + (c.toNat - 65536) / 1024 - 55296) * 1024 +
      (56320 + (c.toNat - 65536) % 1024 - 56320) = c.toNat from by omega]
  rw [Char.ofNat_toNat]

/-- Reading back the escape `json.dumps` produced for any one character
recovers that character and consumes exactly the escape. -/
theorem unescapeStep_escChar (c : Char) (rest : List Char) :
    unescapeStep (jsonEscChar c ++ rest) = some (c, rest) := by
  unfold jsonEscChar
  by_cases h1 : (c == '"') = true
  · rw [if_pos h1, show c = '"' by simpa using h1]
    rfl
  · rw [if_neg h1]
    by_cases h2 : (c == '\\') = true
    · rw [if_pos h2, show c = '\\' by simpa using h2]
      rfl
    · rw [if_neg h2]
      by_cases h3 : (c == '\x08') = true
      · rw [if_pos h3, show c = '\x08' by simpa using h3]
        rfl
      · rw [if_neg h3]
        by_cases h4 : (c == '\x0c') = true
        · rw [if_pos h4, show c = '\x0c' by simpa using h4]
          rfl
        · rw [if_neg h4]
          by_cases h5 : (c == '\n') = true
          · rw [if_pos h5, show c = '\n' by simpa using h5]
            rfl
          · rw [if_neg h5]
            by_cases h6 : (c == '\r') = true
            · rw [if_pos h6, show c = '\r' by simpa using h6]
              rfl
            · rw [if_neg h6]
              by_cases h7 : (c == '\t') = true
              · rw [if_pos h7, show c = '\t' by simpa using h7]
                rfl
              · rw [if_neg h7]
                by_cases h8 : (32 ≤ c.toNat && c.toNat ≤ 126) = true
                · rw [if_pos h8]
                  exact unescapeStep_plain c rest (by simpa using h2)
                · rw [if_neg h8]
                  by_cases h9 : c.toNat < 65536
                  · rw [if_pos h9]
                    exact (unescapeStep_uEsc c.toNat h9 (char_not_surrogate c) rest).trans
                      (by rw [Char.ofNat_toNat])
                  · rw [if_neg h9]
                    rw [List.append_assoc]
                    exact unescapeStep_surrogates c (by omega) rest

/-- Every escape is at least one character long. -/
theorem jsonEscChar_length_pos (c : Char) : 1 ≤ (jsonEscChar c).length := by
  unfold jsonEscChar
  split_ifs <;> simp [uEsc, hex4]

/-- With enough fuel, reading the escaped body recovers the string. -/
theorem jsonUnescapeFuel_escape (s : List Char) (fuel : Nat)
    (hf : (jsonEscape s).length ≤ fuel) :
    jsonUnescapeFuel fuel (jsonEscape s) = some s := by
  induction s generalizing fuel with
  | nil => cases fuel <;> rfl
  | cons c cs ih =>
    have hesc : jsonEscape (c :: cs) = jsonEscChar c ++ jsonEscape cs := rfl
    rcases hE : jsonEscChar c with _ | ⟨e0, etail⟩
    · have := jsonEscChar_length_pos c
      rw [hE] at this
      simp at this
    · have hlen : 1 ≤ (jsonEscChar c).length := jsonEscChar_length_pos c
      rw [hesc] at hf ⊢
      cases fuel with
      | zero =>
        rw [List.length_append] at hf
        omega
      | succ f =>
        rw [hE, List.cons_append, jsonUnescapeFuel]
        rw [← List.cons_append, ← hE, unescapeStep_escChar c (jsonEscape cs)]
        have hf2 : (jsonEscape cs).length ≤ f := by
          rw [List.length_append] at hf
          omega
        dsimp only
        rw [ih f hf2]
        rfl

/-- The `json.dumps` escaping loses nothing: reading the escaped text back
yields the original string, character for character. -/
theorem jsonUnescape_jsonEscape (s : List Char) : jsonUnescape (jsonEscape s) = some s :=
  jsonUnescapeFuel_escape s (jsonEscape s).length (Nat.le_refl _)

/-- C6: on a newline-terminated output line, the jsonl formatter emits the
one-field JSON object of the newline-stripped content followed by the
record newline; the sse formatter emits a `data:` field wrapping exactly
the jsonl record plus the blank-line frame terminator; the escaping inside
the object is invertible (the content is carried unaltered), and both
formatters map the chunk sequence one-to-one in order. -/
theorem json_formatters_frame_lines (content : List Char) (h : '\n' ∉ content)
    (raw : List (List Char)) :
    fmtChunk .jsonl (content ++ ['\n']) = dumpsLineObj content ++ ['\n'] ∧
    fmtChunk .sse (content ++ ['\n']) =
      "data: ".toList ++ dumpsLineObj content ++ ['\n', '\n'] ∧
    fmtChunk .sse (content ++ ['\n']) =
      "data: ".toList ++ fmtChunk .jsonl (content ++ ['\n']) ++ ['\n'] ∧
    jsonUnescape (jsonEscape content) = some content ∧
    fmtLoop .jsonl raw = raw.map (fmtChunk .jsonl) ∧
    fmtLoop .sse raw = raw.map (fmtChunk .sse) := by
  have hs : rstripNl (content ++ ['\n']) = content := rstripNl_line content h
  refine ⟨?_, ?_, ?_, jsonUnescape_jsonEscape content, fmtLoop_map _ raw, fmtLoop_map _ raw⟩
  · show dumpsLineObj (rstripNl (content ++ ['\n'])) ++ ['\n'] = _
    rw [hs]
  · show "data: ".toList ++ dumpsLineObj (rstripNl (content ++ ['\n'])) ++ ['\n', '\n'] = _
    rw [hs]
  · show "data: ".toList ++ dumpsLineObj (rstripNl (content ++ ['\n'])) ++ ['\n', '\n'] =
      "data: ".toList ++ (dumpsLineObj (rstripNl (content ++ ['\n'])) ++ ['\n']) ++ ['\n']
    simp

/-- C6 witness: a line with a quote, a backslash, a tab and a non-ASCII
character. -/
theorem json_formatters_frame_lines_witness :
    fmtChunk .jsonl ("a\"é".toList ++ ['\n']) = dumpsLineObj "a\"é".toList ++ ['\n'] ∧
    jsonUnescape (jsonEscape "a\"é".toList) = some "a\"é".toList :=
  ⟨(json_formatters_frame_lines "a\"é".toList (by decide) []).1,
   (json_formatters_frame_lines "a\"é".toList (by decide) []).2.2.2.1⟩

/-! ## C9: the shortcut URLs and the parameterized blocking run -/

/-- The shortcut handler functions themselves are broken dead code: called
directly, `run_named_script`'s parameters keep their `Query(...)` marker
defaults, and iterating that marker at line 141 raises a `TypeError` as
soon as the key resolves.  They are unreachable over HTTP (see the claim
theorem): the parameterized route is registered first and shadows them. -/
theorem run_os_flashing_handler_is_broken (w : World) (st : FileStat)
    (hf : w.file (TARGET_DIR ++ "/" ++ "os_flashing.sh") = some st) :
    (run_os_flashing w).1 = .error (.typeError "Query object is not iterable") := by
  have hp : script_path_for_key w "os_flashing" =
      (.ok (TARGET_DIR ++ "/" ++ "os_flashing.sh"),
       [.statFile (TARGET_DIR ++ "/" ++ "os_flashing.sh")]) := by
    unfold script_path_for_key
    rw [show ALLOWED_SCRIPTS.lookup "os_flashing" = some "os_flashing.sh" from by decide]
    simp [hf]
  unfold run_os_flashing run_named_script run_script_by_key
  rw [hp]
  rfl

/-- C9: for every allow-listed key, a POST to the shortcut URL
`/scripts/run/<key>` is handled identically to the parameterized blocking
run with no args and `include_source=False` — the route table dispatches
both to `run_named_script` with the injected Query defaults, because the
`/scripts/run/.. ` parameterized route is registered before the shortcut
routes and matches their paths. -/
theorem shortcut_routes_equal_blocking_run (w : World) (key : String)
    (h : key ∈ ALLOWED_SCRIPTS.map Prod.fst) :
    handleBlockingPost w ["scripts", "run", key] =
      some (run_named_script w key .pynone (.pybool false)) := by
  have hk : key = "os_flashing" ∨ key = "remove_os_flashing" ∨
      key = "remove_streaming_hid" ∨ key = "streaming_hid" := by
    simpa [ALLOWED_SCRIPTS] using h
  rcases hk with rfl | rfl | rfl | rfl <;> rfl

/-- C9 witness: the `os_flashing` shortcut URL on a concrete world. -/
theorem shortcut_routes_equal_blocking_run_witness :
    handleBlockingPost
        { file := fun _ => none, runOutcome := fun _ => ⟨0, "", ""⟩ }
        ["scripts", "run", "os_flashing"] =
      some (run_named_script
        { file := fun _ => none, runOutcome := fun _ => ⟨0, "", ""⟩ }
        "os_flashing" .pynone (.pybool false)) :=
  shortcut_routes_equal_blocking_run
    { file := fun _ => none, runOutcome := fun _ => ⟨0, "", ""⟩ }
    "os_flashing" (by decide)

/-! ## C4: quoted arguments reach the script verbatim

The command line built at lines 141-142 is read by the shell into exactly
the word `/bin/bash`, the script path, and the original arguments, one
field per argument, with no word splitting, no expansion and no command
operators — `shellSplit` returns `some` only on a purely literal read. -/

/-- A `shlex`-safe character never equals an unsafe one. -/
theorem safe_ne (c x : Char) (h : shlexSafeChar c = true) (hx : shlexSafeChar x = false) :
    (c == x) = false := by
  rcases hb : (c == x) with _ | _
  · rfl
  · rw [beq_iff_eq] at hb
    subst hb
    rw [h] at hx
    cases hx

/-- A `shlex`-safe character is none of the characters the shell scanner
treats specially. -/
theorem shlexSafeChar_not_special (c : Char) (h : shlexSafeChar c = true) :
    (c == ' ') = false ∧ (c == '\t') = false ∧ (c == '\'') = false ∧
    (c == '"') = false ∧ (c == '\\') = false ∧ shellMeta c = false := by
  refine ⟨safe_ne c ' ' h (by decide), safe_ne c '\t' h (by decide),
    safe_ne c '\'' h (by decide), safe_ne c '"' h (by decide),
    safe_ne c '\\' h (by decide), ?_⟩
  unfold shellMeta
  rw [safe_ne c '$' h (by decide), safe_ne c '`' h (by decide), safe_ne c ';' h (by decide),
    safe_ne c '&' h (by decide), safe_ne c '|' h (by decide), safe_ne c '<' h (by decide),
    safe_ne c '>' h (by decide), safe_ne c '(' h (by decide), safe_ne c ')' h (by decide),
    safe_ne c '*' h (by decide), safe_ne c '?' h (by decide), safe_ne c '[' h (by decide),
    safe_ne c '#' h (by decide), safe_ne c '~' h (by decide), safe_ne c '!' h (by decide),
    safe_ne c '\n' h (by decide), safe_ne c '\x7b' h (by decide),
    safe_ne c '\x7d' h (by decide)]
  rfl

/-- A `shlex`-safe character is not Python whitespace. -/
theorem shlexSafeChar_not_pySpace (c : Char) (h : shlexSafeChar c = true) :
    pySpace c = false := by
  unfold pySpace
  rw [safe_ne c ' ' h (by decide), safe_ne c '\t' h (by decide),
    safe_ne c '\n' h (by decide), safe_ne c '\r' h (by decide),
    safe_ne c '\x0b' h (by decide), safe_ne c '\x0c' h (by decide)]
  rfl

/-- Scanner: end of input outside quotes with an open word. -/
theorem sh_norm_end_started (cur : List Char) (acc : List (List Char)) :
    shellSplitAux [] .norm cur true acc = some (acc ++ [cur]) := by
  rw [shellSplitAux.eq_def]
  simp

/-- Scanner: end of input outside quotes with no open word. -/
theorem sh_norm_end_idle (cur : List Char) (acc : List (List Char)) :
    shellSplitAux [] .norm cur false acc = some acc := by
  rw [shellSplitAux.eq_def]
  simp

/-- Scanner: a space outside quotes ends the open word. -/
theorem sh_norm_space (cs : List Char) (cur : List Char) (acc : List (List Char)) :
    shellSplitAux (' ' :: cs) .norm cur true acc =
      shellSplitAux cs .norm [] false (acc ++ [cur]) := by
  rw [shellSplitAux.eq_def]
  dsimp only
  rw [if_pos (by decide)]
  rfl

/-- Scanner: an opening single quote outside quotes. -/
theorem sh_norm_squote (cs : List Char) (cur : List Char) (started : Bool)
    (acc : List (List Char)) :
    shellSplitAux ('\'' :: cs) .norm cur started acc =
      shellSplitAux cs .squote cur true acc := by
  rw [shellSplitAux.eq_def]
  dsimp only
  rw [if_neg (by decide), if_pos (by decide)]

/-- Scanner: an opening double quote outside quotes. -/
theorem sh_norm_dquote (cs : List Char) (cur : List Char) (started : Bool)
    (acc : List (List Char)) :
    shellSplitAux ('"' :: cs) .norm cur started acc =
      shellSplitAux cs .dquote cur true acc := by
  rw [shellSplitAux.eq_def]
  dsimp only
  rw [if_neg (by decide), if_neg (by decide), if_pos (by decide)]

/-- Scanner: a safe character outside quotes extends the word. -/
theorem sh_norm_safeChar (c : Char) (h : shlexSafeChar c = true) (cs : List Char)
    (cur : List Char) (started : Bool) (acc : List (List Char)) :
    shellSplitAux (c :: cs) .norm cur started acc =
      shellSplitAux cs .norm (cur ++ [c]) true acc := by
  obtain ⟨h1, h2, h3, h4, h5, h6⟩ := shlexSafeChar_not_special c h
  rw [shellSplitAux.eq_def]
  dsimp only
  rw [if_neg (by simp [h1, h2]), if_neg (by simp [h3]), if_neg (by simp [h4]),
    if_neg (by simp [h5]), if_neg (by simp [h6])]

/-- Scanner: the closing single quote. -/
theorem sh_squote_close (cs : List Char) (cur : List Char) (started : Bool)
    (acc : List (List Char)) :
    shellSplitAux ('\'' :: cs) .squote cur started acc =
      shellSplitAux cs .norm cur started acc := by
  rw [shellSplitAux.eq_def]
  dsimp only
  rw [if_pos (by decide)]

/-- Scanner: inside single quotes every other character is literal. -/
theorem sh_squote_lit (c : Char) (hq : (c == '\'') = false) (cs : List Char)
    (cur : List Char) (started : Bool) (acc : List (List Char)) :
    shellSplitAux (c :: cs) .squote cur started acc =
      shellSplitAux cs .squote (cur ++ [c]) started acc := by
  rw [shellSplitAux.eq_def]
  dsimp only
  rw [if_neg (by simp [hq])]

/-- Scanner: the closing double quote. -/
theorem sh_dquote_close (cs : List Char) (cur : List Char) (started : Bool)
    (acc : List (List Char)) :
    shellSplitAux ('"' :: cs) .dquote cur started acc =
      shellSplitAux cs .norm cur started acc := by
  rw [shellSplitAux.eq_def]
  dsimp only
  rw [if_pos (by decide)]

/-- Scanner: inside double quotes an ordinary character is literal. -/
theorem sh_dquote_lit (c : Char) (h1 : (c == '"') = false) (h2 : (c == '$') = false)
    (h3 : (c == '`') = false) (h4 : (c == '\\') = false) (cs : List Char)
    (cur : List Char) (started : Bool) (acc : List (List Char)) :
    shellSplitAux (c :: cs) .dquote cur started acc =
      shellSplitAux cs .dquote (cur ++ [c]) started acc := by
  rw [shellSplitAux.eq_def]
  dsimp only
  rw [if_neg (by simp [h1]), if_neg (by simp [h2, h3]), if_neg (by simp [h4])]

/-- Consuming a run of safe characters outside quotes extends the current
word by exactly those characters. -/
theorem aux_safe_append : ∀ (s : List Char), s.all shlexSafeChar = true →
    ∀ (rest cur : List Char) (started : Bool) (acc : List (List Char)),
      shellSplitAux (s ++ rest) .norm cur started acc =
        shellSplitAux rest .norm (cur ++ s) (started || !s.isEmpty) acc := by
  intro s
  induction s with
  | nil =>
    intro _ rest cur started acc
    simp
  | cons c cs ih =>
    intro h rest cur started acc
    rw [List.all_cons, Bool.and_eq_true] at h
    rw [List.cons_append, sh_norm_safeChar c h.1, ih h.2]
    simp [List.append_assoc]

/-- Consuming the quoted body `s.replace("'", quote dance)` inside single
quotes appends exactly `s` to the current word and returns to the unquoted
mode at the closing quote. -/
theorem aux_sqesc : ∀ (s : List Char) (rest cur : List Char) (acc : List (List Char)),
    shellSplitAux (s.flatMap sqEsc ++ '\'' :: rest) .squote cur true acc =
      shellSplitAux rest .norm (cur ++ s) true acc := by
  intro s
  induction s with
  | nil =>
    intro rest cur acc
    rw [show ([] : List Char).flatMap sqEsc = ([] : List Char) from rfl, List.nil_append,
      sh_squote_close]
    simp
  | cons c cs ih =>
    intro rest cur acc
    by_cases hq : (c == '\'') = true
    · rw [beq_iff_eq] at hq
      subst hq
      rw [List.flatMap_cons, show sqEsc '\'' = ['\'', '"', '\'', '"', '\''] from rfl]
      simp only [List.cons_append, List.append_assoc, List.nil_append]
      rw [sh_squote_close, sh_norm_dquote,
        sh_dquote_lit '\'' (by decide) (by decide) (by decide) (by decide),
        sh_dquote_close, sh_norm_squote, ih]
      simp [List.append_assoc]
    · rw [List.flatMap_cons, show sqEsc c = [c] from by
          unfold sqEsc
          rw [if_neg (by simp [hq])]]
      simp only [List.singleton_append, List.cons_append, List.nil_append]
      rw [sh_squote_lit c (by simpa using hq), ih]
      simp [List.append_assoc]

/-- Consuming one `shlex.quote`d token outside quotes appends exactly the
unquoted text to the current word. -/
theorem aux_quote_token (s : List Char) (rest cur : List Char) (started : Bool)
    (acc : List (List Char)) :
    shellSplitAux (shlexQuote s ++ rest) .norm cur started acc =
      shellSplitAux rest .norm (cur ++ s) true acc := by
  unfold shlexQuote
  by_cases he : s.isEmpty = true
  · rw [if_pos he]
    have hnil : s = [] := by
      cases s with
      | nil => rfl
      | cons c cs => simp at he
    subst hnil
    simp only [List.cons_append, List.nil_append]
    rw [sh_norm_squote, sh_squote_close]
    simp
  · rw [if_neg he]
    by_cases hsafe : s.all shlexSafeChar = true
    · rw [if_pos hsafe, aux_safe_append s hsafe rest cur started acc]
      have hne : s.isEmpty = false := by simpa using he
      rw [hne]
      simp
    · rw [if_neg hsafe]
      simp only [List.cons_append]
      rw [sh_norm_squote, List.append_assoc, List.singleton_append, aux_sqesc]

/-- `" ".join` of two or more quoted arguments, unfolded once. -/
theorem argStr_cons_cons (a b : List Char) (t2 : List (List Char)) :
    argStr (a :: b :: t2) = shlexQuote a ++ (' ' :: argStr (b :: t2)) := by
  unfold argStr
  rw [List.map_cons, List.map_cons, pyJoin]
  rw [List.append_assoc, List.singleton_append]

/-- Parsing the joined quoted arguments from a fresh word boundary yields
exactly the original arguments as fields. -/
theorem aux_argStr : ∀ (args : List (List Char)) (acc : List (List Char)),
    shellSplitAux (argStr args) .norm [] false acc = some (acc ++ args) := by
  intro args
  induction args with
  | nil =>
    intro acc
    rw [show argStr [] = ([] : List Char) from rfl, sh_norm_end_idle]
    simp
  | cons a t ih =>
    intro acc
    cases t with
    | nil =>
      rw [show argStr [a] = shlexQuote a from rfl]
      rw [show shlexQuote a = shlexQuote a ++ [] from (List.append_nil _).symm]
      rw [aux_quote_token a [] [] false acc]
      rw [List.nil_append, sh_norm_end_started]
    | cons b t2 =>
      rw [argStr_cons_cons a b t2]
      rw [aux_quote_token a _ [] false acc]
      rw [List.nil_append, sh_norm_space, ih]
      simp [List.append_assoc]

/-- Parsing `/bin/bash <quoted path>` yields the two fields. -/
theorem parse_cmd_noargs (p : List Char) (acc : List (List Char)) :
    shellSplitAux ("/bin/bash".toList ++ (' ' :: shlexQuote p)) .norm [] false acc =
      some (acc ++ ["/bin/bash".toList, p]) := by
  rw [aux_safe_append "/bin/bash".toList (by decide)]
  rw [show (false || !(("/bin/bash".toList : List Char).isEmpty)) = true from by decide]
  rw [List.nil_append, sh_norm_space]
  rw [show shlexQuote p = shlexQuote p ++ [] from (List.append_nil _).symm]
  rw [aux_quote_token p [] [] false, List.nil_append, sh_norm_end_started]
  simp

/-- Parsing `/bin/bash <quoted path> <quoted args>` yields the command,
the path, and every argument as its own field. -/
theorem parse_cmd_args (p : List Char) (args : List (List Char)) (acc : List (List Char)) :
    shellSplitAux ("/bin/bash".toList ++ (' ' :: (shlexQuote p ++ (' ' :: argStr args))))
        .norm [] false acc =
      some (acc ++ ("/bin/bash".toList :: p :: args)) := by
  rw [aux_safe_append "/bin/bash".toList (by decide)]
  rw [show (false || !(("/bin/bash".toList : List Char).isEmpty)) = true from by decide]
  rw [List.nil_append, sh_norm_space]
  rw [aux_quote_token p _ [] false, List.nil_append, sh_norm_space, aux_argStr]
  simp

/-- Parsing the `stdbuf -oL -eL ` prefix of line 144/169 consumes its
three fields and continues on the rest of the line. -/
theorem parse_stdbuf_lead (X : List Char) :
    shellSplitAux ("stdbuf -oL -eL ".toList ++ X) .norm [] false [] =
      shellSplitAux X .norm [] false ["stdbuf".toList, "-oL".toList, "-eL".toList] := by
  rw [show ("stdbuf -oL -eL ".toList ++ X : List Char) =
    "stdbuf".toList ++ (' ' :: ("-oL".toList ++ (' ' :: ("-eL".toList ++ (' ' :: X)))))
    from rfl]
  rw [aux_safe_append "stdbuf".toList (by decide)]
  rw [show (false || !(("stdbuf".toList : List Char).isEmpty)) = true from by decide]
  rw [List.nil_append, sh_norm_space]
  rw [aux_safe_append "-oL".toList (by decide)]
  rw [show (false || !(("-oL".toList : List Char).isEmpty)) = true from by decide]
  rw [List.nil_append, sh_norm_space]
  rw [aux_safe_append "-eL".toList (by decide)]
  rw [show (false || !(("-eL".toList : List Char).isEmpty)) = true from by decide]
  rw [List.nil_append, sh_norm_space]
  rfl

/-- Dropping steady characters: a list whose head is not whitespace is
untouched by a leading `dropWhile`, and likewise from the right; used to
show `str.strip()` leaves the built command alone except for the one
trailing space. -/
theorem pyStrip_of_shape (c0 : Char) (h0 : pySpace c0 = false) (m : List Char)
    (cl : Char) (hl : pySpace cl = false) (t : List Char)
    (hrev : (c0 :: m).reverse = cl :: t) :
    pyStrip (c0 :: m) = c0 :: m := by
  unfold pyStrip
  rw [List.dropWhile_cons, if_neg (by simp [h0])]
  rw [hrev, List.dropWhile_cons, if_neg (by simp [hl]), ← hrev, List.reverse_reverse]

/-- `str.strip()` of the command with one trailing space: only that space
goes. -/
theorem pyStrip_shape_space (c0 : Char) (h0 : pySpace c0 = false) (m : List Char)
    (cl : Char) (hl : pySpace cl = false) (t : List Char)
    (hrev : (c0 :: m).reverse = cl :: t) :
    pyStrip ((c0 :: m) ++ [' ']) = c0 :: m := by
  unfold pyStrip
  rw [List.cons_append, List.dropWhile_cons, if_neg (by simp [h0]), ← List.cons_append]
  rw [List.reverse_append, show ([' '] : List Char).reverse = [' '] from rfl,
    List.singleton_append, List.dropWhile_cons, if_pos (by decide)]
  rw [hrev, List.dropWhile_cons, if_neg (by simp [hl]), ← hrev, List.reverse_reverse]

/-- The quoted form of any string ends in a non-whitespace character. -/
theorem quote_reverse_head (s : List Char) :
    ∃ c t, (shlexQuote s).reverse = c :: t ∧ pySpace c = false := by
  unfold shlexQuote
  by_cases he : s.isEmpty = true
  · rw [if_pos he]
    exact ⟨'\'', ['\''], by decide, by decide⟩
  · rw [if_neg he]
    by_cases hsafe : s.all shlexSafeChar = true
    · rw [if_pos hsafe]
      rcases hr : s.reverse with _ | ⟨c, t⟩
      · have hnil : s = [] := by simpa using hr
        subst hnil
        simp at he
      · refine ⟨c, t, rfl, ?_⟩
        have hc : c ∈ s := by
          have hm : c ∈ s.reverse := by
            rw [hr]
            exact List.mem_cons_self c t
          exact List.mem_reverse.mp hm
        rw [List.all_eq_true] at hsafe
        exact shlexSafeChar_not_pySpace c (hsafe c hc)
    · rw [if_neg hsafe]
      refine ⟨'\'', (s.flatMap sqEsc).reverse ++ ['\''], ?_, by decide⟩
      simp

/-- The joined quoted arguments end in a non-whitespace character. -/
theorem argStr_reverse_head : ∀ (args : List (List Char)), args ≠ [] →
    ∃ c t, (argStr args).reverse = c :: t ∧ pySpace c = false := by
  intro args
  induction args with
  | nil => intro h; exact absurd rfl h
  | cons a t ih =>
    intro _
    cases t with
    | nil =>
      rw [show argStr [a] = shlexQuote a from rfl]
      exact quote_reverse_head a
    | cons b t2 =>
      rcases ih (by simp) with ⟨c, t3, hct, hcp⟩
      refine ⟨c, t3 ++ ' ' :: (shlexQuote a).reverse, ?_, hcp⟩
      rw [argStr_cons_cons a b t2]
      rw [List.reverse_append, List.reverse_cons, hct]
      simp

/-- `str.strip()` removes nothing but the trailing space of the built
command: with no arguments. -/
theorem buildCmd_noargs (p : List Char) :
    buildCmd p [] = "/bin/bash".toList ++ (' ' :: shlexQuote p) := by
  rcases quote_reverse_head p with ⟨cq, tq, hq, hqs⟩
  unfold buildCmd
  rw [show argStr [] = ([] : List Char) from rfl, List.append_nil]
  have hA : ("/bin/bash ".toList ++ shlexQuote p : List Char) =
      '/' :: ("bin/bash ".toList ++ shlexQuote p) := rfl
  have hArev : (('/' : Char) :: ("bin/bash ".toList ++ shlexQuote p)).reverse =
      cq :: (tq ++ ("/bin/bash ".toList : List Char).reverse) := by
    rw [← hA, List.reverse_append, hq]
    rfl
  rw [hA, pyStrip_shape_space '/' (by decide) _ cq hqs _ hArev, ← hA]
  rfl

/-- `str.strip()` removes nothing of the built command when arguments are
present. -/
theorem buildCmd_args (p : List Char) (a : List Char) (t : List (List Char)) :
    buildCmd p (a :: t) =
      "/bin/bash".toList ++ (' ' :: (shlexQuote p ++ (' ' :: argStr (a :: t)))) := by
  rcases argStr_reverse_head (a :: t) (by simp) with ⟨cJ, tJ, hJ, hJs⟩
  unfold buildCmd
  have hA : ("/bin/bash ".toList ++ shlexQuote p ++ [' '] ++ argStr (a :: t) : List Char) =
      '/' :: ("bin/bash ".toList ++ shlexQuote p ++ [' '] ++ argStr (a :: t)) := rfl
  have hArev : (('/' : Char) ::
      ("bin/bash ".toList ++ shlexQuote p ++ [' '] ++ argStr (a :: t))).reverse =
      cJ :: (tJ ++ ("/bin/bash ".toList ++ shlexQuote p ++ [' '] : List Char).reverse) := by
    rw [← hA, List.reverse_append, hJ]
    rfl
  rw [hA, pyStrip_of_shape '/' (by decide) _ cJ hJs _ hArev, ← hA]
  simp [List.append_assoc]

/-- C4: for every script path and every list of argument strings —
whatever characters they contain — the shell reads the command line that
`run_script_by_key`/`run_named_script_stream` build (lines 141-144,
278-279, including the `stdbuf -oL -eL ` prefix the spawn adds) purely
literally: into `/bin/bash`, the script path, and the original arguments,
one field per argument in order.  No argument is word-split, expanded, or
read as further shell commands — `shellSplit` returns `none` whenever the
shell would do any of those. -/
theorem quoted_args_reach_script_verbatim (script_path : List Char)
    (args : List (List Char)) :
    shellSplit (buildCmd script_path args) =
      some ("/bin/bash".toList :: script_path :: args) ∧
    shellSplit ("stdbuf -oL -eL ".toList ++ buildCmd script_path args) =
      some ("stdbuf".toList :: "-oL".toList :: "-eL".toList ::
        "/bin/bash".toList :: script_path :: args) := by
  cases args with
  | nil =>
    rw [buildCmd_noargs]
    unfold shellSplit
    rw [parse_stdbuf_lead, parse_cmd_noargs, parse_cmd_noargs]
    exact ⟨rfl, rfl⟩
  | cons a t =>
    rw [buildCmd_args]
    unfold shellSplit
    rw [parse_stdbuf_lead, parse_cmd_args, parse_cmd_args]
    exact ⟨rfl, rfl⟩

end Setup
